import Mathlib

/-!
Verification of the xv6 RDMA subsystem (kernel/rdma.c, kernel/rdma_net.c).

The definitions below are a shallow embedding of the C sources: machine
integers are modelled as `Nat` with explicit `% 2^32` / `% 2^64` where the
C code can overflow, the global `mr_table` / `qp_table` arrays are lists,
raw physical memory is a function `Nat → Nat` from byte addresses to byte
values, and environment effects (mbuf allocation, page-table walks) are
explicit parameters.
-/

namespace RdmaSpec

/-! ## Constants (kernel/rdma.h, kernel/rdma_net.h, xv6 riscv.h) -/

def MAX_MRS : Nat := 64
def MAX_QPS : Nat := 16
def PGSIZE : Nat := 4096

/-- Modulus of the C type uint32. -/
def U32 : Nat := 2 ^ 32

/-- Modulus of the C type uint64. -/
def U64 : Nat := 2 ^ 64

def RDMA_ACCESS_LOCAL_READ : Nat := 0x01
def RDMA_ACCESS_LOCAL_WRITE : Nat := 0x02
def RDMA_ACCESS_REMOTE_READ : Nat := 0x04
def RDMA_ACCESS_REMOTE_WRITE : Nat := 0x08

def RDMA_OP_WRITE : Nat := 0x01
def RDMA_OP_READ : Nat := 0x02
def RDMA_OP_SEND : Nat := 0x03
def RDMA_OP_READ_RESP : Nat := 0x04

def RDMA_WR_SIGNALED : Nat := 1

def RDMA_WC_SUCCESS : Nat := 0x00
def RDMA_WC_LOC_PROT_ERR : Nat := 0x01
def RDMA_WC_REM_ACCESS_ERR : Nat := 0x02
def RDMA_WC_LOC_LEN_ERR : Nat := 0x03
def RDMA_WC_REM_INV_REQ : Nat := 0x04

def RDMA_NET_OP_WRITE : Nat := 0x01
def RDMA_NET_OP_READ : Nat := 0x02
def RDMA_NET_OP_READ_RESP : Nat := 0x03
def RDMA_NET_OP_ACK : Nat := 0x04

def RDMA_PKT_FLAG_SIGNALED : Nat := 0x01

/-- Byte size of the packed struct rdma_work_request (kernel/rdma.h). -/
def SQ_ENTRY_BYTES : Nat := 44

/-- Byte size of the packed struct rdma_completion (kernel/rdma.h). -/
def CQ_ENTRY_BYTES : Nat := 16

/-- PGROUNDDOWN from xv6 riscv.h: clear the page-offset bits. -/
def PGROUNDDOWN (a : Nat) : Nat := a - a % PGSIZE

/-! ## Data model (kernel/rdma.h) -/

/-- Hardware-visible part of a memory region (struct rdma_mr_hw). -/
structure rdma_mr_hw where
  id : Nat
  access_flags : Nat
  vaddr : Nat
  paddr : Nat
  length : Nat
  lkey : Nat
  rkey : Nat
  valid : Bool
deriving Repr, DecidableEq

/-- Full memory region with kernel metadata (struct rdma_mr). The C
`owner` field is a pointer to a struct proc; it is modelled by the
pointer identity `owner : Nat`. `refcount` is a C int. -/
structure rdma_mr where
  hw : rdma_mr_hw
  owner : Nat
  owner_pid : Nat
  refcount : Int
deriving Repr, DecidableEq

/-- The part of struct proc that the RDMA core reads: pointer identity,
pid and user-space size. -/
structure proc where
  ptr : Nat
  pid : Nat
  sz : Nat
deriving Repr, DecidableEq

/-- Work request (struct rdma_work_request). -/
structure rdma_work_request where
  wr_id : Nat
  opcode : Nat
  flags : Nat
  local_mr_id : Nat
  local_offset : Nat
  remote_mr_id : Nat
  remote_addr : Nat
  remote_key : Nat
  length : Nat
deriving Repr, DecidableEq

/-- Completion entry (struct rdma_completion). -/
structure rdma_completion where
  wr_id : Nat
  byte_len : Nat
  status : Nat
  opcode : Nat
deriving Repr, DecidableEq

/-- QP states. The .c files use QP_STATE_RESET, QP_STATE_INIT,
QP_STATE_RTR and QP_STATE_RTS; the header also lists an error state. -/
inductive qp_state where
  | RESET
  | INIT
  | RTR
  | RTS
  | ERROR
deriving Repr, DecidableEq

/-- One slot of the per-QP pending-ACK table (struct rdma_qp). -/
structure rdma_pending_ack where
  valid : Bool
  seq_num : Nat
  wr_id : Nat
deriving Repr, DecidableEq

/-- Queue pair (struct rdma_qp). The SQ and CQ ring buffers are lists
indexed by the head/tail cursors; uint32 counters are Nat values kept
below 2^32 by reducing every update mod U32. -/
structure rdma_qp where
  id : Nat
  sq : List rdma_work_request
  sq_head : Nat
  sq_tail : Nat
  sq_size : Nat
  cq : List rdma_completion
  cq_head : Nat
  cq_tail : Nat
  cq_size : Nat
  owner : Nat
  valid : Bool
  state : qp_state
  outstanding_ops : Nat
  remote_mac : List Nat
  remote_qp_num : Nat
  connected : Bool
  network_mode : Bool
  tx_seq_num : Nat
  rx_expected_seq : Nat
  pending_acks : List rdma_pending_ack
  stats_sends : Nat
  stats_completions : Nat
  stats_errors : Nat
deriving Repr, DecidableEq

/-- Zero-filled work request (the SQ page is memset to 0 on creation). -/
def wr0 : rdma_work_request := ⟨0, 0, 0, 0, 0, 0, 0, 0, 0⟩

/-- Zero-filled completion entry. -/
def cqe0 : rdma_completion := ⟨0, 0, 0, 0⟩

/-- Invalid pending-ACK slot. -/
def pa0 : rdma_pending_ack := ⟨false, 0, 0⟩

/-- Physical memory, a byte value for every physical byte address. -/
def Mem : Type := Nat → Nat

/-- The RDMA packet header (struct rdma_pkt_hdr, kernel/rdma_net.h),
with multi-byte fields held in host order (the htons/htonl/htonll and
ntohs/ntohl/ntohll conversions are mutually inverse bijections applied
at TX and RX, so the logical field values are modelled directly). -/
structure rdma_pkt_hdr where
  opcode : Nat
  flags : Nat
  src_qp : Nat
  dst_qp : Nat
  seq_num : Nat
  local_mr_id : Nat
  remote_mr_id : Nat
  remote_addr : Nat
  length : Nat
  remote_key : Nat
deriving Repr, DecidableEq

/-- An Ethernet frame carrying an RDMA packet, as built by
rdma_net_tx_write: destination/source MAC, header and payload bytes. -/
structure eth_frame where
  dhost : List Nat
  shost : List Nat
  hdr : rdma_pkt_hdr
  payload : List Nat
deriving Repr, DecidableEq

/-! ## MR registry (kernel/rdma.c) -/

/-- rdma_mr_get: returns the MR only when the id is in range 1..MAX_MRS
and the slot is valid and owned by the calling process (both the proc
pointer and the captured pid must match). -/
def rdma_mr_get (mrt : List rdma_mr) (p : proc) (mr_id : Nat) : Option rdma_mr :=
  if mr_id < 1 ∨ mr_id > MAX_MRS then none
  else
    match mrt.get? (mr_id - 1) with
    | none => none
    | some mr =>
      if ¬mr.hw.valid ∨ mr.owner ≠ p.ptr ∨ mr.owner_pid ≠ p.pid then none
      else some mr

/-- mr->refcount++ through the pointer returned by rdma_mr_get. -/
def mr_inc_ref (mrt : List rdma_mr) (mr_id : Nat) : List rdma_mr :=
  match mrt.get? (mr_id - 1) with
  | none => mrt
  | some mr => mrt.set (mr_id - 1) { mr with refcount := mr.refcount + 1 }

/-- mr->refcount-- through the pointer returned by rdma_mr_get. -/
def mr_dec_ref (mrt : List rdma_mr) (mr_id : Nat) : List rdma_mr :=
  match mrt.get? (mr_id - 1) with
  | none => mrt
  | some mr => mrt.set (mr_id - 1) { mr with refcount := mr.refcount - 1 }

/-- rdma_mr_register(addr, len, flags). The page-table walk is an
explicit environment parameter: `walk v = some frame` when the page
holding user virtual address v is mapped with physical page frame
`frame` (PTE2PA of the valid PTE). All uint64 sums carry an explicit
mod U64 because the C additions wrap. Returns the 1-based id and the
updated table, or -1 and the unchanged table. -/
def rdma_mr_register (p : proc) (walk : Nat → Option Nat) (mrt : List rdma_mr)
    (addr len flags : Nat) : Int × List rdma_mr :=
  if addr = 0 ∨ len = 0 then (-1, mrt)
  else if addr ≥ p.sz ∨ (addr + len) % U64 > p.sz then (-1, mrt)
  else
    let start_page := PGROUNDDOWN addr
    let end_page := PGROUNDDOWN ((addr + len - 1) % U64)
    if start_page ≠ end_page then (-1, mrt)
    else
      match mrt.findIdx? (fun mr => !mr.hw.valid) with
      | none => (-1, mrt)
      | some i =>
        match walk addr with
        | none => (-1, mrt)
        | some frame =>
          let paddr := frame ||| (addr % PGSIZE)
          let mr : rdma_mr :=
            { hw := { id := i + 1, access_flags := flags, vaddr := addr, paddr := paddr,
                      length := len, lkey := i + 1, rkey := i + 1, valid := true },
              owner := p.ptr, owner_pid := p.pid, refcount := 0 }
          ((i : Int) + 1, mrt.set i mr)

/-! ## Destination address resolution (rdma.c lines 105-126 and
rdma_net.c lines 194-212, identical logic at both sites) -/

/-- Resolution of a WRITE's remote_addr against the destination MR:
treat it as an absolute virtual address when it falls inside
[vaddr, vaddr+length), else as an offset when it is below length,
else fail. The C comparison `remote_addr < vaddr + length` is a uint64
sum, hence the explicit mod U64. -/
def resolve_offset (hw : rdma_mr_hw) (remote_addr : Nat) : Option Nat :=
  if remote_addr ≥ hw.vaddr ∧ remote_addr < (hw.vaddr + hw.length) % U64 then
    some (remote_addr - hw.vaddr)
  else if remote_addr < hw.length then
    some remote_addr
  else
    none

/-- memmove over physical memory: copy n bytes from src to dst. -/
def memmove_region (mem : Mem) (dst src n : Nat) : Mem :=
  fun a => if dst ≤ a ∧ a < dst + n then mem (src + (a - dst)) else mem a

/-- Write a list of bytes to physical memory starting at dst. -/
def write_bytes (mem : Mem) (dst : Nat) (bytes : List Nat) : Mem :=
  fun a => if dst ≤ a ∧ a < dst + bytes.length then bytes.getD (a - dst) 0 else mem a

/-- The loopback branch of the executor's opcode dispatch
(rdma.c lines 87-151): returns the completion status and the possibly
updated physical memory. READ, SEND and any other non-WRITE opcode all
produce RDMA_WC_LOC_PROT_ERR without touching memory. -/
def loopback_dispatch (mrt : List rdma_mr) (p : proc) (mem : Mem)
    (wr : rdma_work_request) : Nat × Mem :=
  if wr.opcode = RDMA_OP_WRITE then
    match rdma_mr_get mrt p wr.remote_mr_id with
    | none => (RDMA_WC_REM_ACCESS_ERR, mem)
    | some dst_mr =>
      if dst_mr.hw.access_flags &&& RDMA_ACCESS_REMOTE_WRITE = 0 then
        (RDMA_WC_REM_ACCESS_ERR, mem)
      else
        match resolve_offset dst_mr.hw wr.remote_addr with
        | none => (RDMA_WC_REM_INV_REQ, mem)
        | some offset =>
          if (offset + wr.length) % U64 > dst_mr.hw.length then
            (RDMA_WC_REM_INV_REQ, mem)
          else
            (RDMA_WC_SUCCESS,
              memmove_region mem ((dst_mr.hw.paddr + offset) % U64) wr.local_offset wr.length)
  else
    (RDMA_WC_LOC_PROT_ERR, mem)

/-- Append a completion to the CQ ring: write the entry at cq_tail and
advance cq_tail mod cq_size. The producers never check for CQ fullness. -/
def post_cqe (qp : rdma_qp) (comp : rdma_completion) : rdma_qp :=
  { qp with cq := qp.cq.set qp.cq_tail comp,
            cq_tail := (qp.cq_tail + 1) % qp.cq_size }

/-! ## Network TX path (kernel/rdma_net.c) -/

/-- Environment effects of the network paths: whether mbufalloc
succeeds, whether mbufput finds room for the payload, and the local MAC
address reported by the NIC. -/
structure NetEnv where
  alloc_ok : Bool
  put_ok : Bool
  local_mac : List Nat
deriving Repr, DecidableEq

/-- The pending-ACK recording loop of rdma_net_tx_write: the first
invalid slot (if any) receives {seq_num, wr_id, valid}. -/
def record_pending_ack (l : List rdma_pending_ack) (seq wrid : Nat) :
    List rdma_pending_ack :=
  match l.findIdx? (fun pa => !pa.valid) with
  | some i => l.set i { valid := true, seq_num := seq, wr_id := wrid }
  | none => l

/-- The QP mutations performed by rdma_net_tx_write once the frame has
been built: a SIGNALED work request records a pending-ACK entry,
tx_seq_num is always incremented (uint32), and an RTR QP is promoted
to RTS on first transmission. -/
def tx_qp_next (qp : rdma_qp) (wr : rdma_work_request) : rdma_qp :=
  let qp1 :=
    if wr.flags &&& RDMA_WR_SIGNALED ≠ 0 then
      { qp with pending_acks := record_pending_ack qp.pending_acks qp.tx_seq_num wr.wr_id }
    else qp
  let qp2 := { qp1 with tx_seq_num := (qp1.tx_seq_num + 1) % U32 }
  if qp2.state = qp_state.RTR then { qp2 with state := qp_state.RTS } else qp2

/-- The WRITE frame built by rdma_net_tx_write: Ethernet addressing,
RDMA header with the current tx_seq_num, and the payload copied from
the (already physical) local_offset. -/
def tx_frame (env : NetEnv) (mem : Mem) (qp : rdma_qp) (wr : rdma_work_request) : eth_frame :=
  { dhost := qp.remote_mac,
    shost := env.local_mac,
    hdr :=
      { opcode := RDMA_NET_OP_WRITE,
        flags := if wr.flags &&& RDMA_WR_SIGNALED ≠ 0 then RDMA_PKT_FLAG_SIGNALED else 0,
        src_qp := qp.id % 2 ^ 16,
        dst_qp := qp.remote_qp_num % 2 ^ 16,
        seq_num := qp.tx_seq_num,
        local_mr_id := wr.local_mr_id,
        remote_mr_id := wr.remote_mr_id,
        remote_addr := wr.remote_addr,
        length := wr.length,
        remote_key := wr.remote_key },
    payload := (List.range wr.length).map (fun i => mem (wr.local_offset + i)) }

/-- rdma_net_tx_write(qp, wr): build and transmit a WRITE frame.
Returns none on failure (-1 in C: source MR lookup failed, mbufalloc
failed, or mbufput failed), otherwise the updated QP and the
transmitted frame. -/
def rdma_net_tx_write (env : NetEnv) (mrt : List rdma_mr) (p : proc) (mem : Mem)
    (qp : rdma_qp) (wr : rdma_work_request) : Option (rdma_qp × eth_frame) :=
  match rdma_mr_get mrt p wr.local_mr_id with
  | none => none
  | some _ =>
    if ¬env.alloc_ok then none
    else if ¬env.put_ok then none
    else some (tx_qp_next qp wr, tx_frame env mem qp wr)

/-- The header of the ACK frame built by rdma_net_tx_ack. -/
def mk_ack_hdr (qp : rdma_qp) (remote_qp seq : Nat) : rdma_pkt_hdr :=
  { opcode := RDMA_NET_OP_ACK, flags := 0,
    src_qp := qp.id % 2 ^ 16, dst_qp := remote_qp % 2 ^ 16,
    seq_num := seq, local_mr_id := 0, remote_mr_id := 0,
    remote_addr := 0, length := 0, remote_key := 0 }

/-! ## Work executor (rdma_process_work_requests, rdma.c lines 36-184) -/

/-- State threaded through the executor: the QP being drained, the MR
table, physical memory, and the log of frames handed to e1000_transmit. -/
structure ExecSt where
  qp : rdma_qp
  mrt : List rdma_mr
  mem : Mem
  frames : List eth_frame

/-- Advance to the next work request (rdma.c lines 179-182):
sq_head = (sq_head + 1) % sq_size, outstanding_ops-- (uint32, so the
decrement wraps mod U32). -/
def sq_advance (qp : rdma_qp) : rdma_qp :=
  { qp with sq_head := (qp.sq_head + 1) % qp.sq_size,
            outstanding_ops := (qp.outstanding_ops + (U32 - 1)) % U32 }

/-- The body of one executor iteration before the `next_wr` label: read
the WR at sq_head, look up the source MR (posting an error CQE and
skipping the refcount decrement when it fails, as the C `goto next_wr`
does), dispatch on (network_mode ∧ state = RTS, opcode), and decrement
the source MR refcount on the non-goto paths. -/
def dispatch_one (env : NetEnv) (p : proc) (s : ExecSt) : ExecSt :=
  let qp := s.qp
  let wr := qp.sq.getD qp.sq_head wr0
  match rdma_mr_get s.mrt p wr.local_mr_id with
  | none =>
    let comp : rdma_completion := ⟨wr.wr_id, 0, RDMA_WC_LOC_PROT_ERR, wr.opcode⟩
    let qp1 := post_cqe qp comp
    { s with qp := { qp1 with stats_errors := (qp1.stats_errors + 1) % U32 } }
  | some _ =>
    let s1 : ExecSt :=
      if qp.network_mode ∧ qp.state = qp_state.RTS then
        if wr.opcode = RDMA_OP_WRITE then
          match rdma_net_tx_write env s.mrt p s.mem qp wr with
          | some (qpx, frame) => { s with qp := qpx, frames := s.frames ++ [frame] }
          | none =>
            let comp : rdma_completion := ⟨wr.wr_id, 0, RDMA_WC_LOC_PROT_ERR, wr.opcode⟩
            let qp1 := post_cqe qp comp
            { s with qp := { qp1 with stats_errors := (qp1.stats_errors + 1) % U32 } }
        else s
      else
        let r := loopback_dispatch s.mrt p s.mem wr
        let qp1 :=
          if wr.flags &&& RDMA_WR_SIGNALED ≠ 0 ∨ r.1 ≠ RDMA_WC_SUCCESS then
            let comp : rdma_completion :=
              ⟨wr.wr_id, if r.1 = RDMA_WC_SUCCESS then wr.length else 0, r.1, wr.opcode⟩
            let qpx := post_cqe qp comp
            if r.1 = RDMA_WC_SUCCESS then
              { qpx with stats_completions := (qpx.stats_completions + 1) % U32 }
            else
              { qpx with stats_errors := (qpx.stats_errors + 1) % U32 }
          else qp
        { s with qp := qp1, mem := r.2 }
    { s1 with mrt := mr_dec_ref s1.mrt wr.local_mr_id }

/-- One iteration of the executor's while loop: the dispatch body
followed by the advance at the `next_wr` label (reached by all paths). -/
def process_one_wr (env : NetEnv) (p : proc) (s : ExecSt) : ExecSt :=
  let s2 := dispatch_one env p s
  { s2 with qp := sq_advance s2.qp }

/-- The executor's while loop, fuelled. Each iteration advances sq_head
by one slot and never touches sq_tail or sq_size, so fuel = sq_size is
always enough to reach sq_head = sq_tail, at which point the loop (and
this function, for any larger fuel) stops. -/
def process_wrs (env : NetEnv) (p : proc) : Nat → ExecSt → ExecSt
  | 0, s => s
  | fuel + 1, s =>
    if s.qp.sq_head = s.qp.sq_tail then s
    else process_wrs env p fuel (process_one_wr env p s)

/-! ## QP management (kernel/rdma.c) -/

/-- Kernel page allocations performed by rdma_qp_create. -/
structure AllocEnv where
  sq_alloc_ok : Bool
  cq_alloc_ok : Bool
deriving Repr, DecidableEq

/-- Zero-filled QP slot (the table entry as left by rdma_qp_init). -/
def qp0 : rdma_qp :=
  { id := 0, sq := [], sq_head := 0, sq_tail := 0, sq_size := 0,
    cq := [], cq_head := 0, cq_tail := 0, cq_size := 0,
    owner := 0, valid := false, state := qp_state.RESET, outstanding_ops := 0,
    remote_mac := [0, 0, 0, 0, 0, 0], remote_qp_num := 0, connected := false,
    network_mode := false, tx_seq_num := 0, rx_expected_seq := 0,
    pending_acks := List.replicate 64 pa0,
    stats_sends := 0, stats_completions := 0, stats_errors := 0 }

/-- rdma_qp_create(sq_size, cq_size): validate that both sizes are
non-zero powers of two and fit in one page, take the first free slot,
allocate and zero both rings, and initialise the slot. Fields the C
code does not assign (remote_mac, remote_qp_num, and the seq_num/wr_id
parts of pending_acks) keep the old slot contents. Returns the 0-based
id and the new table, or `none` (-1 in C). -/
def rdma_qp_create (p : proc) (env : AllocEnv) (qpt : List rdma_qp)
    (sq_size cq_size : Nat) : Option (Nat × List rdma_qp) :=
  if sq_size = 0 ∨ sq_size &&& (sq_size - 1) ≠ 0 ∨
     cq_size = 0 ∨ cq_size &&& (cq_size - 1) ≠ 0 then none
  else if sq_size > PGSIZE / SQ_ENTRY_BYTES ∨ cq_size > PGSIZE / CQ_ENTRY_BYTES then none
  else
    match qpt.findIdx? (fun q => !q.valid) with
    | none => none
    | some i =>
      if ¬env.sq_alloc_ok then none
      else if ¬env.cq_alloc_ok then none
      else
        let old := qpt.getD i qp0
        let qp : rdma_qp :=
          { old with
            id := i,
            sq := List.replicate sq_size wr0, sq_head := 0, sq_tail := 0, sq_size := sq_size,
            cq := List.replicate cq_size cqe0, cq_head := 0, cq_tail := 0, cq_size := cq_size,
            owner := p.ptr, valid := true, state := qp_state.INIT,
            outstanding_ops := 0, connected := false,
            stats_sends := 0, stats_completions := 0, stats_errors := 0,
            network_mode := false, tx_seq_num := 0, rx_expected_seq := 0,
            pending_acks := old.pending_acks.map (fun pa => { pa with valid := false }) }
        some (i, qpt.set i qp)

/-- The SQ append performed by rdma_qp_post_send once all validation
has passed (rdma.c lines 648-659): write the kernel copy of the WR at
sq_tail, advance sq_tail, and bump outstanding_ops and stats_sends. -/
def sq_append (qp : rdma_qp) (kernel_wr : rdma_work_request) : rdma_qp :=
  { qp with sq := qp.sq.set qp.sq_tail kernel_wr,
            sq_tail := (qp.sq_tail + 1) % qp.sq_size,
            outstanding_ops := (qp.outstanding_ops + 1) % U32,
            stats_sends := (qp.stats_sends + 1) % U32 }

/-- System state for the entry points: MR table, QP table, physical
memory, and the log of transmitted frames. -/
structure SysSt where
  mrt : List rdma_mr
  qpt : List rdma_qp
  mem : Mem
  frames : List eth_frame

/-- rdma_qp_post_send(qp_id, wr): validate the id, the local MR and its
bounds, take a provisional refcount, validate QP ownership and state
and ring capacity (undoing the refcount on each of those failures),
append the WR with local_offset rewritten to the physical address, and
run the executor inline. Returns 0 or -1 together with the next state. -/
def rdma_qp_post_send (env : NetEnv) (p : proc) (s : SysSt) (qp_id : Int)
    (wr : rdma_work_request) : Int × SysSt :=
  if qp_id < 0 ∨ qp_id ≥ (MAX_QPS : Int) then (-1, s)
  else
    match rdma_mr_get s.mrt p wr.local_mr_id with
    | none => (-1, s)
    | some mr =>
      if (wr.local_offset + wr.length) % U64 > mr.hw.length then (-1, s)
      else
        let mrt1 := mr_inc_ref s.mrt wr.local_mr_id
        let physical_offset := (mr.hw.paddr + wr.local_offset) % U64
        match s.qpt.get? qp_id.toNat with
        | none => (-1, s)
        | some qp =>
          if ¬qp.valid ∨ qp.owner ≠ p.ptr then
            (-1, { s with mrt := mr_dec_ref mrt1 wr.local_mr_id })
          else if qp.state ≠ qp_state.INIT ∧ qp.state ≠ qp_state.RTR ∧
                  qp.state ≠ qp_state.RTS then
            (-1, { s with mrt := mr_dec_ref mrt1 wr.local_mr_id })
          else
            let next_tail := (qp.sq_tail + 1) % qp.sq_size
            if next_tail = qp.sq_head then
              let qpx := { qp with stats_errors := (qp.stats_errors + 1) % U32 }
              (-1, { s with qpt := s.qpt.set qp_id.toNat qpx,
                            mrt := mr_dec_ref mrt1 wr.local_mr_id })
            else
              let kernel_wr := { wr with local_offset := physical_offset }
              let es := process_wrs env p qp.sq_size ⟨sq_append qp kernel_wr, mrt1, s.mem, s.frames⟩
              (0, { mrt := es.mrt, qpt := s.qpt.set qp_id.toNat es.qp,
                    mem := es.mem, frames := es.frames })

/-- The copy loop of rdma_qp_poll_cq: while the CQ is non-empty and
fewer than max entries have been copied, copy the entry at cq_head,
bump the per-status counter, and advance cq_head. -/
def poll_loop : Nat → rdma_qp → List rdma_completion → rdma_qp × List rdma_completion
  | 0, qp, acc => (qp, acc)
  | m + 1, qp, acc =>
    if qp.cq_head = qp.cq_tail then (qp, acc)
    else
      let c := qp.cq.getD qp.cq_head cqe0
      let qp1 :=
        { qp with
          stats_completions :=
            if c.status = RDMA_WC_SUCCESS then (qp.stats_completions + 1) % U32
            else qp.stats_completions,
          stats_errors :=
            if c.status = RDMA_WC_SUCCESS then qp.stats_errors
            else (qp.stats_errors + 1) % U32,
          cq_head := (qp.cq_head + 1) % qp.cq_size }
      poll_loop m qp1 (acc ++ [c])

/-- rdma_qp_poll_cq(qp_id, comp_array, max_comps): validate arguments
and ownership, then drain up to max_comps completions. Returns the
count (or -1), the copied entries, and the updated table. -/
def rdma_qp_poll_cq (p : proc) (qpt : List rdma_qp) (qp_id : Int) (max_comps : Int) :
    Int × List rdma_completion × List rdma_qp :=
  if qp_id < 0 ∨ qp_id ≥ (MAX_QPS : Int) ∨ max_comps ≤ 0 then (-1, [], qpt)
  else
    match qpt.get? qp_id.toNat with
    | none => (-1, [], qpt)
    | some qp =>
      if ¬qp.valid ∨ qp.owner ≠ p.ptr then (-1, [], qpt)
      else
        let r := poll_loop max_comps.toNat qp []
        ((r.2.length : Int), r.2, qpt.set qp_id.toNat r.1)

/-- rdma_qp_connect(qp_id, mac, remote_qp): legal only from INIT; store
the peer info, enable network mode, set both sequence numbers to 1 and
move straight to RTS. -/
def rdma_qp_connect (p : proc) (qpt : List rdma_qp) (qp_id : Int) (mac : List Nat)
    (remote_qp : Nat) : Int × List rdma_qp :=
  if qp_id < 0 ∨ qp_id ≥ (MAX_QPS : Int) then (-1, qpt)
  else
    match qpt.get? qp_id.toNat with
    | none => (-1, qpt)
    | some qp =>
      if ¬qp.valid ∨ qp.owner ≠ p.ptr then (-1, qpt)
      else if qp.state ≠ qp_state.INIT then (-1, qpt)
      else
        let qpx :=
          { qp with remote_mac := mac.take 6, remote_qp_num := remote_qp,
                    network_mode := true, connected := true,
                    tx_seq_num := 1, rx_expected_seq := 1, state := qp_state.RTS }
        (0, qpt.set qp_id.toNat qpx)

/-! ## Network RX path (rdma_net_rx, kernel/rdma_net.c lines 136-274) -/

/-- Result of processing one inbound frame: the new QP table, the new
physical memory, and the ACK frames transmitted (empty or singleton). -/
structure RxResult where
  qpt : List rdma_qp
  mem : Mem
  acks : List rdma_pkt_hdr

/-- rdma_net_rx on an already-parsed header. WRITE frames validate the
destination QP and MR, resolve the remote address, bounds-check, pull
the payload, write it to physical memory, post a receiver-side
completion and emit an ACK; every validation failure drops the frame
silently (though an RTR destination QP is still promoted to RTS first).
ACK frames clear the first matching pending_acks entry and post the
sender-side completion. -/
def rdma_net_rx (env : NetEnv) (p : proc) (mrt : List rdma_mr) (qpt : List rdma_qp)
    (mem : Mem) (hdr : rdma_pkt_hdr) (payload : List Nat) : RxResult :=
  if hdr.dst_qp ≥ MAX_QPS then ⟨qpt, mem, []⟩
  else
    match qpt.get? hdr.dst_qp with
    | none => ⟨qpt, mem, []⟩
    | some qp =>
      if ¬qp.valid then ⟨qpt, mem, []⟩
      else if hdr.opcode = RDMA_NET_OP_WRITE then
        let qpw := if qp.state = qp_state.RTR then { qp with state := qp_state.RTS } else qp
        match rdma_mr_get mrt p hdr.remote_mr_id with
        | none => ⟨qpt.set hdr.dst_qp qpw, mem, []⟩
        | some dst_mr =>
          if dst_mr.hw.access_flags &&& RDMA_ACCESS_REMOTE_WRITE = 0 then
            ⟨qpt.set hdr.dst_qp qpw, mem, []⟩
          else
            match resolve_offset dst_mr.hw hdr.remote_addr with
            | none => ⟨qpt.set hdr.dst_qp qpw, mem, []⟩
            | some offset =>
              if (offset + hdr.length) % U64 > dst_mr.hw.length then
                ⟨qpt.set hdr.dst_qp qpw, mem, []⟩
              else if payload.length < hdr.length then
                ⟨qpt.set hdr.dst_qp qpw, mem, []⟩
              else
                let mem2 := write_bytes mem ((dst_mr.hw.paddr + offset) % U64)
                  (payload.take hdr.length)
                let comp : rdma_completion := ⟨0, hdr.length, RDMA_WC_SUCCESS, RDMA_OP_WRITE⟩
                let qp1 := post_cqe qpw comp
                let qp2 := { qp1 with stats_completions := (qp1.stats_completions + 1) % U32 }
                let acks := if env.alloc_ok then [mk_ack_hdr qp2 hdr.src_qp hdr.seq_num] else []
                ⟨qpt.set hdr.dst_qp qp2, mem2, acks⟩
      else if hdr.opcode = RDMA_NET_OP_ACK then
        match qp.pending_acks.findIdx? (fun pa => pa.valid && pa.seq_num == hdr.seq_num) with
        | none => ⟨qpt, mem, []⟩
        | some i =>
          let pa := qp.pending_acks.getD i pa0
          let comp : rdma_completion := ⟨pa.wr_id, hdr.length, RDMA_WC_SUCCESS, RDMA_OP_WRITE⟩
          let qp1 := post_cqe qp comp
          let qp2 :=
            { qp1 with stats_completions := (qp1.stats_completions + 1) % U32,
                       pending_acks := qp1.pending_acks.set i { pa with valid := false } }
          ⟨qpt.set hdr.dst_qp qp2, mem, []⟩
      else ⟨qpt, mem, []⟩

/-! ## Ring-buffer invariant (spec section 8, property 2) -/

/-- Occupancy of the send ring: (sq_tail - sq_head) mod sq_size,
written over Nat as (sq_tail + sq_size - sq_head) % sq_size. -/
def sq_gap (qp : rdma_qp) : Nat := (qp.sq_tail + qp.sq_size - qp.sq_head) % qp.sq_size

/-- The claimed invariant: the ring occupancy equals outstanding_ops. -/
def sq_inv (qp : rdma_qp) : Prop := sq_gap qp = qp.outstanding_ops

/-- Structural well-formedness of a QP's send ring, established by
rdma_qp_create: a positive size below 2^32 with both cursors in range. -/
def qp_wf (qp : rdma_qp) : Prop :=
  0 < qp.sq_size ∧ qp.sq_size < U32 ∧ qp.sq_head < qp.sq_size ∧ qp.sq_tail < qp.sq_size

instance (qp : rdma_qp) : Decidable (sq_inv qp) := by unfold sq_inv; infer_instance

instance (qp : rdma_qp) : Decidable (qp_wf qp) := by unfold qp_wf; infer_instance

/-! ## Concrete fixtures used by witnesses and counterexamples -/

/-- A process: proc-struct identity 100, pid 7, user size 10000 bytes. -/
def p0 : proc := ⟨100, 7, 10000⟩

/-- An empty MR slot, as left by rdma_mr_init. -/
def mrEmpty : rdma_mr := { hw := ⟨0, 0, 0, 0, 0, 0, 0, false⟩, owner := 0, owner_pid := 0, refcount := 0 }

/-- The MR table right after rdma_mr_init: 64 free slots. -/
def mrt0 : List rdma_mr := List.replicate 64 mrEmpty

/-- A page-table walk in which every page is mapped at frame 0x80000000. -/
def walk0 : Nat → Option Nat := fun _ => some 0x80000000

/-- All-zero physical memory. -/
def mem0 : Mem := fun _ => 0

/-- An MR owned by p0: one page at vaddr 4096, paddr 8192, 256 bytes,
all access flags. -/
def mr1 : rdma_mr :=
  { hw := { id := 1, access_flags := 0x0F, vaddr := 4096, paddr := 8192, length := 256,
            lkey := 1, rkey := 1, valid := true },
    owner := 100, owner_pid := 7, refcount := 0 }

/-- MR table with mr1 registered in slot 0 (id 1). -/
def mrt1 : List rdma_mr := mrt0.set 0 mr1

/-- Network environment in which mbuf operations succeed. -/
def env0 : NetEnv := ⟨true, true, [1, 2, 3, 4, 5, 6]⟩

/-- Allocation environment in which kalloc succeeds. -/
def aenv0 : AllocEnv := ⟨true, true⟩

/-- The QP table right after rdma_qp_init: 16 free slots. -/
def qpt0 : List rdma_qp := List.replicate 16 qp0

/-- QP table after rdma_qp_create(1, 64) by p0: slot 0 has an sq_size-1 QP. -/
def qpt1 : List rdma_qp := ((rdma_qp_create p0 aenv0 qpt0 1 64).getD (0, qpt0)).2

/-- QP table after rdma_qp_create(4, 64) by p0: slot 0 in INIT state. -/
def qpt4 : List rdma_qp := ((rdma_qp_create p0 aenv0 qpt0 4 64).getD (0, qpt0)).2

/-- QP table after additionally connecting QP 0 to remote QP 0: network
mode, RTS state, tx_seq_num 1. -/
def qptN : List rdma_qp := (rdma_qp_connect p0 qpt4 0 [9, 9, 9, 9, 9, 9] 0).2

/-- A signaled WRITE work request: 16 bytes from MR 1 offset 0 to MR 1
offset 0. -/
def wrW : rdma_work_request :=
  { wr_id := 42, opcode := RDMA_OP_WRITE, flags := RDMA_WR_SIGNALED,
    local_mr_id := 1, local_offset := 0, remote_mr_id := 1, remote_addr := 0,
    remote_key := 1, length := 16 }

/-- The same WRITE with the SIGNALED flag cleared. -/
def wrU : rdma_work_request := { wrW with flags := 0 }

/-- A signaled READ work request. -/
def wrR : rdma_work_request := { wrW with opcode := RDMA_OP_READ }

/-- System state with mr1 registered and the sq_size-1 QP. -/
def sys1 : SysSt := ⟨mrt1, qpt1, mem0, []⟩

/-- System state with mr1 registered and the loopback sq_size-4 QP. -/
def sys4 : SysSt := ⟨mrt1, qpt4, mem0, []⟩

/-- System state with mr1 registered and the connected network QP. -/
def sysN : SysSt := ⟨mrt1, qptN, mem0, []⟩

/-- The connected network-mode QP itself. -/
def qpN : rdma_qp := qptN.getD 0 qp0

/-- Executor state poised to run wrW on a loopback QP: wrW sits at
sq_head = 0 with sq_tail = 1 on a valid INIT QP owned by p0. -/
def qpL : rdma_qp :=
  { qp0 with valid := true, owner := 100, state := qp_state.INIT,
             sq := (List.replicate 4 wr0).set 0 wrW, sq_head := 0, sq_tail := 1, sq_size := 4,
             cq := List.replicate 8 cqe0, cq_head := 0, cq_tail := 0, cq_size := 8,
             outstanding_ops := 1 }

def esL : ExecSt := ⟨qpL, mrt1, mem0, []⟩

/-- The same executor state but with the READ request wrR queued. -/
def qpLR : rdma_qp := { qpL with sq := (List.replicate 4 wr0).set 0 wrR }

def esLR : ExecSt := ⟨qpLR, mrt1, mem0, []⟩

/-- Default frame, used only to project out of optional results. -/
def frame0 : eth_frame := ⟨[], [], ⟨0, 0, 0, 0, 0, 0, 0, 0, 0, 0⟩, []⟩

/-- QP and frame produced by transmitting wrW on the connected QP. -/
def qpTx : rdma_qp := ((rdma_net_tx_write env0 mrt1 p0 mem0 qpN wrW).getD (qp0, frame0)).1

def frTx : eth_frame := ((rdma_net_tx_write env0 mrt1 p0 mem0 qpN wrW).getD (qp0, frame0)).2

/-- An inbound WRITE frame aimed at a non-existent MR id 99. -/
def hdrBadMr : rdma_pkt_hdr := ⟨RDMA_NET_OP_WRITE, 1, 0, 0, 1, 1, 99, 0, 16, 1⟩

/-- An inbound ACK frame for sequence number 1 aimed at QP 0. -/
def hdrAck : rdma_pkt_hdr := ⟨RDMA_NET_OP_ACK, 0, 0, 0, 1, 0, 0, 0, 0, 0⟩

/-- QP table of the sender after transmitting the signaled wrW. -/
def qptAfterTx : List rdma_qp := (rdma_qp_post_send env0 p0 sysN 0 wrW).2.qpt

/-- A QP used for the CQ-overflow scenario: empty CQ of size 4. -/
def qpC : rdma_qp :=
  { qp0 with valid := true, owner := 100, state := qp_state.INIT,
             sq := List.replicate 4 wr0, sq_head := 0, sq_tail := 0, sq_size := 4,
             cq := List.replicate 4 cqe0, cq_head := 0, cq_tail := 0, cq_size := 4 }

/-- A sample successful completion entry. -/
def cqeS : rdma_completion := ⟨7, 16, RDMA_WC_SUCCESS, RDMA_OP_WRITE⟩

/-! ## Helper lemmas -/

theorem list_get?_set_self {α : Type} (l : List α) (i : Nat) (a : α) (h : i < l.length) :
    (l.set i a).get? i = some a := by
  rw [List.get?_set_eq, List.get?_eq_get h]
  rfl

theorem list_set_of_get? {α : Type} (l : List α) (i : Nat) (a : α) (h : l.get? i = some a) :
    l.set i a = l := by
  induction l generalizing i with
  | nil => simp at h
  | cons x xs ih =>
    cases i with
    | zero => simp at h; simp [h]
    | succ n => simpa using ih n (by simpa using h)

theorem gap_mod_eq (sz h t : Nat) (hh : h < sz) (ht : t < sz) :
    (t + sz - h) % sz = if h ≤ t then t - h else t + sz - h := by
  split
  · next hle =>
    have he : t + sz - h = sz + (t - h) := by omega
    rw [he, Nat.add_mod_left]
    exact Nat.mod_eq_of_lt (by omega)
  · exact Nat.mod_eq_of_lt (by omega)

theorem gap_succ_head (sz h t : Nat) (hs : 0 < sz) (hh : h < sz) (ht : t < sz)
    (hne : h ≠ t) :
    (t + sz - (h + 1) % sz) % sz = (t + sz - h) % sz - 1 := by
  by_cases hc : h + 1 = sz
  · have h0 : (h + 1) % sz = 0 := by rw [hc, Nat.mod_self]
    rw [h0, gap_mod_eq sz 0 t hs ht, gap_mod_eq sz h t hh ht]
    split <;> split <;> omega
  · have h1 : (h + 1) % sz = h + 1 := Nat.mod_eq_of_lt (by omega)
    rw [h1, gap_mod_eq sz (h + 1) t (by omega) ht, gap_mod_eq sz h t hh ht]
    split <;> split <;> omega

theorem gap_succ_tail (sz h t : Nat) (hs : 0 < sz) (hh : h < sz) (ht : t < sz)
    (hnf : (t + 1) % sz ≠ h) :
    ((t + 1) % sz + sz - h) % sz = (t + sz - h) % sz + 1 := by
  by_cases hc : t + 1 = sz
  · have h0 : (t + 1) % sz = 0 := by rw [hc, Nat.mod_self]
    rw [h0] at hnf ⊢
    rw [gap_mod_eq sz h 0 hh hs, gap_mod_eq sz h t hh ht]
    split <;> split <;> omega
  · have h1 : (t + 1) % sz = t + 1 := Nat.mod_eq_of_lt (by omega)
    rw [h1] at hnf ⊢
    rw [gap_mod_eq sz h (t + 1) hh (by omega), gap_mod_eq sz h t hh ht]
    split <;> split <;> omega

theorem gap_zero_iff (sz h t : Nat) (hh : h < sz) (ht : t < sz) :
    (t + sz - h) % sz = 0 ↔ h = t := by
  rw [gap_mod_eq sz h t hh ht]
  split <;> omega

theorem u32_dec_eq (o : Nat) (h1 : 1 ≤ o) (h2 : o < U32) :
    (o + (U32 - 1)) % U32 = o - 1 := by
  have hu : U32 = 4294967296 := by norm_num [U32]
  rw [hu] at h2 ⊢
  omega

theorem post_cqe_sq_fields (qp : rdma_qp) (c : rdma_completion) :
    (post_cqe qp c).sq_head = qp.sq_head ∧ (post_cqe qp c).sq_tail = qp.sq_tail ∧
    (post_cqe qp c).sq_size = qp.sq_size ∧
    (post_cqe qp c).outstanding_ops = qp.outstanding_ops :=
  ⟨rfl, rfl, rfl, rfl⟩

theorem tx_qp_next_fields (qp : rdma_qp) (wr : rdma_work_request) :
    (tx_qp_next qp wr).sq_head = qp.sq_head ∧ (tx_qp_next qp wr).sq_tail = qp.sq_tail ∧
    (tx_qp_next qp wr).sq_size = qp.sq_size ∧
    (tx_qp_next qp wr).outstanding_ops = qp.outstanding_ops ∧
    (tx_qp_next qp wr).cq = qp.cq ∧ (tx_qp_next qp wr).cq_tail = qp.cq_tail ∧
    (tx_qp_next qp wr).cq_size = qp.cq_size := by
  simp only [tx_qp_next]
  split_ifs <;> exact ⟨rfl, rfl, rfl, rfl, rfl, rfl, rfl⟩

theorem tx_write_some_inv (env : NetEnv) (mrt : List rdma_mr) (p : proc) (mem : Mem)
    (qp qpx : rdma_qp) (wr : rdma_work_request) (fr : eth_frame)
    (h : rdma_net_tx_write env mrt p mem qp wr = some (qpx, fr)) :
    qpx = tx_qp_next qp wr ∧ fr = tx_frame env mem qp wr := by
  unfold rdma_net_tx_write at h
  split at h
  · exact absurd h (by simp)
  · split at h
    · exact absurd h (by simp)
    · split at h
      · exact absurd h (by simp)
      · rw [Option.some.injEq, Prod.mk.injEq] at h
        exact ⟨h.1.symm, h.2.symm⟩

theorem dispatch_one_sq_fields (env : NetEnv) (p : proc) (s : ExecSt) :
    (dispatch_one env p s).qp.sq_head = s.qp.sq_head ∧
    (dispatch_one env p s).qp.sq_tail = s.qp.sq_tail ∧
    (dispatch_one env p s).qp.sq_size = s.qp.sq_size ∧
    (dispatch_one env p s).qp.outstanding_ops = s.qp.outstanding_ops := by
  simp only [dispatch_one]
  cases hmr : rdma_mr_get s.mrt p (s.qp.sq.getD s.qp.sq_head wr0).local_mr_id with
  | none => simp only [hmr]; simp [post_cqe]
  | some m =>
    simp only [hmr]
    by_cases hnet : s.qp.network_mode = true ∧ s.qp.state = qp_state.RTS
    · simp only [if_pos hnet]
      by_cases hop : (s.qp.sq.getD s.qp.sq_head wr0).opcode = RDMA_OP_WRITE
      · simp only [if_pos hop]
        cases htx : rdma_net_tx_write env s.mrt p s.mem s.qp (s.qp.sq.getD s.qp.sq_head wr0) with
        | none => simp only [htx]; simp [post_cqe]
        | some r =>
          obtain ⟨qpx, fr⟩ := r
          obtain ⟨hq, -⟩ := tx_write_some_inv _ _ _ _ _ _ _ _ htx
          subst hq
          simp only [htx]
          obtain ⟨e1, e2, e3, e4, -⟩ := tx_qp_next_fields s.qp (s.qp.sq.getD s.qp.sq_head wr0)
          exact ⟨e1, e2, e3, e4⟩
      · simp only [if_neg hop]
        simp [post_cqe]
    · simp only [if_neg hnet]
      by_cases hsig : ((s.qp.sq.getD s.qp.sq_head wr0).flags &&& RDMA_WR_SIGNALED ≠ 0 ∨
          (loopback_dispatch s.mrt p s.mem (s.qp.sq.getD s.qp.sq_head wr0)).1 ≠ RDMA_WC_SUCCESS)
      · simp only [if_pos hsig]
        by_cases hst :
            (loopback_dispatch s.mrt p s.mem (s.qp.sq.getD s.qp.sq_head wr0)).1 = RDMA_WC_SUCCESS
        · simp only [if_pos hst]; simp [post_cqe]
        · simp only [if_neg hst]; simp [post_cqe]
      · simp only [if_neg hsig]; simp [post_cqe]

theorem process_one_wr_sq_fields (env : NetEnv) (p : proc) (s : ExecSt) :
    (process_one_wr env p s).qp.sq_head = (s.qp.sq_head + 1) % s.qp.sq_size ∧
    (process_one_wr env p s).qp.sq_tail = s.qp.sq_tail ∧
    (process_one_wr env p s).qp.sq_size = s.qp.sq_size ∧
    (process_one_wr env p s).qp.outstanding_ops = (s.qp.outstanding_ops + (U32 - 1)) % U32 := by
  obtain ⟨e1, e2, e3, e4⟩ := dispatch_one_sq_fields env p s
  unfold process_one_wr sq_advance
  refine ⟨?_, ?_, ?_, ?_⟩ <;> simp only [e1, e2, e3, e4]

theorem process_wrs_drain (env : NetEnv) (p : proc) :
    ∀ (fuel : Nat) (s : ExecSt),
      0 < s.qp.sq_size → s.qp.sq_size < U32 →
      s.qp.sq_head < s.qp.sq_size → s.qp.sq_tail < s.qp.sq_size →
      sq_inv s.qp → sq_gap s.qp ≤ fuel →
      (process_wrs env p fuel s).qp.sq_head = (process_wrs env p fuel s).qp.sq_tail ∧
      sq_inv (process_wrs env p fuel s).qp ∧
      (process_wrs env p fuel s).qp.sq_tail = s.qp.sq_tail ∧
      (process_wrs env p fuel s).qp.sq_size = s.qp.sq_size := by
  intro fuel
  induction fuel with
  | zero =>
    intro s h1 h2 h3 h4 hinv hgap
    have h0 : sq_gap s.qp = 0 := Nat.le_zero.mp hgap
    simp only [sq_gap] at h0
    exact ⟨(gap_zero_iff _ _ _ h3 h4).mp h0, hinv, rfl, rfl⟩
  | succ n ih =>
    intro s h1 h2 h3 h4 hinv hgap
    by_cases hht : s.qp.sq_head = s.qp.sq_tail
    · simp only [process_wrs, if_pos hht]
      exact ⟨hht, hinv, trivial, trivial⟩
    · simp only [process_wrs, if_neg hht]
      obtain ⟨f1, f2, f3, f4⟩ := process_one_wr_sq_fields env p s
      have hgap1 : 1 ≤ sq_gap s.qp := by
        rcases Nat.eq_zero_or_pos (sq_gap s.qp) with h | h
        · simp only [sq_gap] at h
          exact absurd ((gap_zero_iff _ _ _ h3 h4).mp h) hht
        · exact h
      have hgap_lt : sq_gap s.qp < s.qp.sq_size := by
        simp only [sq_gap]; exact Nat.mod_lt _ h1
      have hsz1 : 0 < (process_one_wr env p s).qp.sq_size := by rw [f3]; exact h1
      have hsz2 : (process_one_wr env p s).qp.sq_size < U32 := by rw [f3]; exact h2
      have hh1 : (process_one_wr env p s).qp.sq_head < (process_one_wr env p s).qp.sq_size := by
        rw [f1, f3]; exact Nat.mod_lt _ h1
      have ht1 : (process_one_wr env p s).qp.sq_tail < (process_one_wr env p s).qp.sq_size := by
        rw [f2, f3]; exact h4
      have hoge : sq_gap (process_one_wr env p s).qp = sq_gap s.qp - 1 := by
        simp only [sq_gap, f1, f2, f3]
        exact gap_succ_head _ _ _ h1 h3 h4 hht
      have hinv1 : sq_inv (process_one_wr env p s).qp := by
        simp only [sq_inv, hoge, f4]
        rw [← hinv, u32_dec_eq (sq_gap s.qp) hgap1 (lt_trans hgap_lt h2)]
      have hgapn : sq_gap (process_one_wr env p s).qp ≤ n := by omega
      obtain ⟨g1, g2, g3, g4⟩ := ih (process_one_wr env p s) hsz1 hsz2 hh1 ht1 hinv1 hgapn
      exact ⟨g1, g2, by rw [g3, f2], by rw [g4, f3]⟩

theorem poll_loop_sq_fields :
    ∀ (m : Nat) (qp : rdma_qp) (acc : List rdma_completion),
      (poll_loop m qp acc).1.sq_head = qp.sq_head ∧
      (poll_loop m qp acc).1.sq_tail = qp.sq_tail ∧
      (poll_loop m qp acc).1.sq_size = qp.sq_size ∧
      (poll_loop m qp acc).1.outstanding_ops = qp.outstanding_ops := by
  intro m
  induction m with
  | zero => intro qp acc; exact ⟨rfl, rfl, rfl, rfl⟩
  | succ n ih =>
    intro qp acc
    by_cases h : qp.cq_head = qp.cq_tail
    · simp only [poll_loop, if_pos h]
      exact ⟨trivial, trivial, trivial, trivial⟩
    · simp only [poll_loop, if_neg h]
      exact ih _ _

theorem post_cqe_iterate (c : rdma_completion) :
    ∀ (n : Nat) (qp : rdma_qp), 0 < qp.cq_size → qp.cq_tail < qp.cq_size →
      ((fun q => post_cqe q c)^[n] qp).cq_tail = (qp.cq_tail + n) % qp.cq_size ∧
      ((fun q => post_cqe q c)^[n] qp).cq_head = qp.cq_head ∧
      ((fun q => post_cqe q c)^[n] qp).cq_size = qp.cq_size := by
  intro n
  induction n with
  | zero =>
    intro qp h1 h2
    exact ⟨(Nat.mod_eq_of_lt h2).symm, rfl, rfl⟩
  | succ m ih =>
    intro qp h1 h2
    rw [Function.iterate_succ_apply]
    obtain ⟨g1, g2, g3⟩ := ih (post_cqe qp c) h1 (Nat.mod_lt _ h1)
    refine ⟨?_, g2, g3⟩
    rw [g1]
    show ((qp.cq_tail + 1) % qp.cq_size + m) % qp.cq_size = (qp.cq_tail + (m + 1)) % qp.cq_size
    rw [Nat.mod_add_mod]
    have he : qp.cq_tail + 1 + m = qp.cq_tail + (m + 1) := by omega
    rw [he]

/-! ## Claim theorems -/

/-- C10: completion producers never check whether the CQ is full;
post_cqe advances cq_tail mod cq_size unconditionally, so generating
cq_size completions on a QP whose CQ starts empty wraps cq_tail back
onto cq_head, and a subsequent rdma_qp_poll_cq finds an "empty" queue
and returns 0, losing all cq_size unread completions. -/
theorem C10_cq_overflow_loses_completions (c : rdma_completion) (qp : rdma_qp)
    (hsz : 0 < qp.cq_size) (hht : qp.cq_head = qp.cq_tail) (hlt : qp.cq_tail < qp.cq_size) :
    (∀ (q : rdma_qp) (d : rdma_completion),
      (post_cqe q d).cq_tail = (q.cq_tail + 1) % q.cq_size) ∧
    ((fun q => post_cqe q c)^[qp.cq_size] qp).cq_tail =
      ((fun q => post_cqe q c)^[qp.cq_size] qp).cq_head ∧
    (∀ (m : Nat),
      poll_loop m ((fun q => post_cqe q c)^[qp.cq_size] qp) [] =
        ((fun q => post_cqe q c)^[qp.cq_size] qp, [])) ∧
    (∀ (p : proc) (qpt : List rdma_qp) (qp_id maxc : Int),
      0 ≤ qp_id → qp_id < (MAX_QPS : Int) → 0 < maxc →
      qpt.get? qp_id.toNat = some ((fun q => post_cqe q c)^[qp.cq_size] qp) →
      ((fun q => post_cqe q c)^[qp.cq_size] qp).valid = true →
      ((fun q => post_cqe q c)^[qp.cq_size] qp).owner = p.ptr →
      (rdma_qp_poll_cq p qpt qp_id maxc).1 = 0) := by
  obtain ⟨g1, g2, g3⟩ := post_cqe_iterate c qp.cq_size qp hsz hlt
  have htail : ((fun q => post_cqe q c)^[qp.cq_size] qp).cq_tail = qp.cq_tail := by
    rw [g1, Nat.add_mod_right]
    exact Nat.mod_eq_of_lt hlt
  have hempty : ((fun q => post_cqe q c)^[qp.cq_size] qp).cq_head =
      ((fun q => post_cqe q c)^[qp.cq_size] qp).cq_tail := by
    rw [htail, g2, hht]
  have hpoll : ∀ (m : Nat),
      poll_loop m ((fun q => post_cqe q c)^[qp.cq_size] qp) [] =
        ((fun q => post_cqe q c)^[qp.cq_size] qp, []) := by
    intro m
    cases m with
    | zero => rfl
    | succ k => simp only [poll_loop, if_pos hempty]
  refine ⟨fun q d => rfl, htail.trans (g2.trans hht).symm, hpoll, ?_⟩
  intro p qpt qp_id maxc hq0 hq16 hmax hget hvalid howner
  unfold rdma_qp_poll_cq
  rw [if_neg (by omega)]
  simp only [hget]
  rw [if_neg (by simp [hvalid, howner])]
  simp only [hpoll maxc.toNat, List.length_nil, Nat.cast_zero]

/-- C9 (amended): the SQ full test is (sq_tail + 1) % sq_size ==
sq_head, so a ring of size sq_size holds at most sq_size - 1
outstanding requests; rdma_qp_create accepts sq_size = 1; on such a QP
no rdma_qp_post_send ever succeeds (every call returns -1), and every
call that passes the pre-queue validation (valid owned MR, local
bounds, owned QP in a legal state) fails at the full test and
increments stats_errors even though the ring is empty. A call that
fails the earlier validation also returns -1 but with a different
error and without touching stats_errors (see the counterexample). -/
theorem C9_sq_size_one_always_full :
    (∀ (qp : rdma_qp), qp_wf qp → sq_inv qp →
      qp.outstanding_ops ≤ qp.sq_size - 1) ∧
    (∀ (p : proc) (env : AllocEnv) (qpt : List rdma_qp) (j : Nat),
      qpt.findIdx? (fun q => !q.valid) = some j →
      env.sq_alloc_ok = true → env.cq_alloc_ok = true →
      (rdma_qp_create p env qpt 1 64).isSome = true) ∧
    (∀ (env : NetEnv) (p : proc) (s : SysSt) (qp_id : Int) (wr : rdma_work_request)
       (qp : rdma_qp) (mr : rdma_mr),
      0 ≤ qp_id → qp_id < (MAX_QPS : Int) →
      rdma_mr_get s.mrt p wr.local_mr_id = some mr →
      ¬((wr.local_offset + wr.length) % U64 > mr.hw.length) →
      s.qpt.get? qp_id.toNat = some qp →
      qp.valid = true → qp.owner = p.ptr →
      (qp.state = qp_state.INIT ∨ qp.state = qp_state.RTR ∨ qp.state = qp_state.RTS) →
      qp.sq_size = 1 → qp.sq_head = 0 →
      (rdma_qp_post_send env p s qp_id wr).1 = -1 ∧
      (rdma_qp_post_send env p s qp_id wr).2.qpt.get? qp_id.toNat =
        some { qp with stats_errors := (qp.stats_errors + 1) % U32 }) ∧
    (∀ (env : NetEnv) (p : proc) (s : SysSt) (qp_id : Int) (wr : rdma_work_request)
       (qp : rdma_qp),
      s.qpt.get? qp_id.toNat = some qp → qp.sq_size = 1 → qp.sq_head = 0 →
      (rdma_qp_post_send env p s qp_id wr).1 = -1) := by
  refine ⟨?_, ?_, ?_, ?_⟩
  · intro qp hwf hinv
    obtain ⟨h1, -, -, -⟩ := hwf
    have hg : sq_gap qp < qp.sq_size := by
      simp only [sq_gap]; exact Nat.mod_lt _ h1
    simp only [sq_inv] at hinv
    omega

  · intro p env qpt j hfind hsq hcq
    unfold rdma_qp_create
    rw [if_neg (by decide), if_neg (by decide)]
    simp only [hfind]
    rw [if_neg (by simp [hsq]), if_neg (by simp [hcq])]
    rfl
  · intro env p s qp_id wr qp mr hq0 hq16 hmr hbound hget hvalid howner hstate hsz1 hh0
    have hlen : qp_id.toNat < s.qpt.length := by
      obtain ⟨hl, -⟩ := List.get?_eq_some.mp hget
      exact hl
    unfold rdma_qp_post_send
    rw [if_neg (by omega)]
    simp only [hmr]
    rw [if_neg hbound]
    simp only [hget]
    rw [if_neg (by simp [hvalid, howner]),
      if_neg (by rcases hstate with h | h | h <;> simp [h]),
      if_pos (show (qp.sq_tail + 1) % qp.sq_size = qp.sq_head by
        rw [hsz1, hh0, Nat.mod_one])]
    exact ⟨rfl, list_get?_set_self _ _ _ hlen⟩
  · intro env p s qp_id wr qp hget hsz1 hh0
    unfold rdma_qp_post_send
    by_cases h1 : qp_id < 0 ∨ qp_id ≥ (MAX_QPS : Int)
    · rw [if_pos h1]
    · rw [if_neg h1]
      cases hmr : rdma_mr_get s.mrt p wr.local_mr_id with
      | none => simp only [hmr]
      | some mr =>
        simp only [hmr]
        by_cases hb : (wr.local_offset + wr.length) % U64 > mr.hw.length
        · rw [if_pos hb]
        · rw [if_neg hb]
          simp only [hget]
          by_cases hv : ¬qp.valid = true ∨ qp.owner ≠ p.ptr
          · rw [if_pos hv]
          · rw [if_neg hv]
            by_cases hst : qp.state ≠ qp_state.INIT ∧ qp.state ≠ qp_state.RTR ∧
                qp.state ≠ qp_state.RTS
            · rw [if_pos hst]
            · rw [if_neg hst]
              rw [if_pos (show (qp.sq_tail + 1) % qp.sq_size = qp.sq_head by
                rw [hsz1, hh0, Nat.mod_one])]

/-- C9 counterexample: a call with an unknown local MR id on the
sq_size-1 QP fails (-1) but with the MR-validation error, not the
queue-full error: stats_errors stays 0 — refuting the claim that every
call fails with the queue-full error and increments stats_errors. -/
theorem C9_counterexample :
    (qpt1.getD 0 qp0).sq_size = 1 ∧
    (rdma_qp_post_send env0 p0 sys1 0 { wrW with local_mr_id := 99 }).1 = -1 ∧
    ((rdma_qp_post_send env0 p0 sys1 0
        { wrW with local_mr_id := 99 }).2.qpt.getD 0 qp0).stats_errors = 0 := by
  decide

/-- C6: rdma_mr_register rejects addr = 0, len = 0, ranges past the
user size and page-crossing ranges, and accepts an exactly page-sized
page-aligned range while rejecting the same range shifted by one byte;
however, the out-of-range check computes addr + len in wrapping uint64
arithmetic, so a length close to 2^64 slips past both the size check
and the page-boundary check and registers an MR far larger than the
user address space — the code contradicts the documented INVALID_ARG
behaviour. -/
theorem C6_mr_register_boundary_and_overflow :
    (rdma_mr_register p0 walk0 mrt0 0 256 3).1 = -1 ∧
    (rdma_mr_register p0 walk0 mrt0 4096 0 3).1 = -1 ∧
    (rdma_mr_register p0 walk0 mrt0 9990 200 3).1 = -1 ∧
    (rdma_mr_register p0 walk0 mrt0 3996 200 3).1 = -1 ∧
    (rdma_mr_register p0 walk0 mrt0 4096 4096 3).1 = 1 ∧
    (rdma_mr_register p0 walk0 mrt0 4097 4096 3).1 = -1 ∧
    (10000 < 4196 + (U64 - 99) ∧
      (rdma_mr_register p0 walk0 mrt0 4196 (U64 - 99) 3).1 = 1 ∧
      ((rdma_mr_register p0 walk0 mrt0 4196 (U64 - 99) 3).2.getD 0 mrEmpty).hw.length =
        U64 - 99) := by
  decide

/-- C9 witness: on the concrete sq_size-1 QP of sys1, the otherwise
valid post of wrW fails with -1 and bumps stats_errors. -/
theorem C9_witness :
    (rdma_qp_post_send env0 p0 sys1 0 wrW).1 = -1 ∧
    (rdma_qp_post_send env0 p0 sys1 0 wrW).2.qpt.get? (0 : Int).toNat =
      some { (qpt1.getD 0 qp0) with
             stats_errors := ((qpt1.getD 0 qp0).stats_errors + 1) % U32 } :=
  C9_sq_size_one_always_full.2.2.1 env0 p0 sys1 0 wrW (qpt1.getD 0 qp0) mr1
    (by decide) (by decide) (by decide) (by decide) (by decide) (by decide) (by decide)
    (Or.inl (by decide)) (by decide) (by decide)

/-- C10 witness: posting cq_size completions to the concrete empty CQ
of qpC wraps cq_tail back onto cq_head. -/
theorem C10_witness :
    0 < qpC.cq_size ∧
    ((fun q => post_cqe q cqeS)^[qpC.cq_size] qpC).cq_tail =
      ((fun q => post_cqe q cqeS)^[qpC.cq_size] qpC).cq_head :=
  ⟨by decide, (C10_cq_overflow_loses_completions cqeS qpC (by decide) (by decide)
    (by decide)).2.1⟩

theorem mr_get_some_get? (mrt : List rdma_mr) (p : proc) (mr_id : Nat) (mr : rdma_mr)
    (h : rdma_mr_get mrt p mr_id = some mr) :
    mrt.get? (mr_id - 1) = some mr := by
  unfold rdma_mr_get at h
  split at h
  · simp at h
  · split at h
    · simp at h
    · rename_i m2 heq
      split at h
      · simp at h
      · rw [Option.some.injEq] at h
        subst h
        exact heq

theorem mr_inc_dec_cancel (mrt : List rdma_mr) (mr_id : Nat) (mr : rdma_mr)
    (h : mrt.get? (mr_id - 1) = some mr) :
    mr_dec_ref (mr_inc_ref mrt mr_id) mr_id = mrt := by
  have hlen : mr_id - 1 < mrt.length := (List.get?_eq_some.mp h).1
  unfold mr_inc_ref mr_dec_ref
  rw [h]
  simp only [list_get?_set_self _ _ _ hlen, List.set_set]
  have he : mr.refcount + 1 - 1 = mr.refcount := by omega
  rw [he]
  exact list_set_of_get? _ _ _ h

/-- C4: whenever rdma_qp_post_send returns an error, the returned value
is negative (-1), the MR table is exactly as before the call (any
provisional refcount increment has been undone), no QP's sq_tail moved,
no completion was generated (every QP's cq and cq_tail are unchanged),
and neither memory nor the frame log changed. -/
theorem C4_post_send_error_leaves_state_clean (env : NetEnv) (p : proc) (s : SysSt)
    (qp_id : Int) (wr : rdma_work_request)
    (herr : (rdma_qp_post_send env p s qp_id wr).1 < 0) :
    (rdma_qp_post_send env p s qp_id wr).1 = -1 ∧
    (rdma_qp_post_send env p s qp_id wr).2.mrt = s.mrt ∧
    (rdma_qp_post_send env p s qp_id wr).2.mem = s.mem ∧
    (rdma_qp_post_send env p s qp_id wr).2.frames = s.frames ∧
    (∀ (k : Nat) (qp qp2 : rdma_qp),
      s.qpt.get? k = some qp →
      (rdma_qp_post_send env p s qp_id wr).2.qpt.get? k = some qp2 →
      qp2.sq_tail = qp.sq_tail ∧ qp2.sq_head = qp.sq_head ∧
      qp2.cq = qp.cq ∧ qp2.cq_tail = qp.cq_tail ∧ qp2.cq_head = qp.cq_head) := by
  have hsame : ∀ (k : Nat) (qp qp2 : rdma_qp),
      s.qpt.get? k = some qp → s.qpt.get? k = some qp2 →
      qp2.sq_tail = qp.sq_tail ∧ qp2.sq_head = qp.sq_head ∧
      qp2.cq = qp.cq ∧ qp2.cq_tail = qp.cq_tail ∧ qp2.cq_head = qp.cq_head := by
    intro k qp qp2 ha hb
    rw [ha, Option.some.injEq] at hb
    subst hb
    exact ⟨rfl, rfl, rfl, rfl, rfl⟩
  unfold rdma_qp_post_send at herr ⊢
  by_cases h1 : qp_id < 0 ∨ qp_id ≥ (MAX_QPS : Int)
  · simp only [if_pos h1]
    refine ⟨?_, ?_, ?_, ?_, hsame⟩ <;> trivial
  · simp only [if_neg h1] at herr ⊢
    cases hmr : rdma_mr_get s.mrt p wr.local_mr_id with
    | none =>
      simp only [hmr]
      refine ⟨?_, ?_, ?_, ?_, hsame⟩ <;> trivial
    | some mr =>
      simp only [hmr] at herr ⊢
      have hmrt : mr_dec_ref (mr_inc_ref s.mrt wr.local_mr_id) wr.local_mr_id = s.mrt :=
        mr_inc_dec_cancel s.mrt wr.local_mr_id mr (mr_get_some_get? _ _ _ _ hmr)
      by_cases hb : (wr.local_offset + wr.length) % U64 > mr.hw.length
      · simp only [if_pos hb]
        refine ⟨?_, ?_, ?_, ?_, hsame⟩ <;> trivial
      · simp only [if_neg hb] at herr ⊢
        cases hq : s.qpt.get? qp_id.toNat with
        | none =>
          simp only [hq]
          refine ⟨?_, ?_, ?_, ?_, hsame⟩ <;> trivial
        | some qp =>
          simp only [hq] at herr ⊢
          have hqlen : qp_id.toNat < s.qpt.length := (List.get?_eq_some.mp hq).1
          by_cases hv : ¬qp.valid = true ∨ qp.owner ≠ p.ptr
          · simp only [if_pos hv]
            refine ⟨?_, ?_, ?_, ?_, hsame⟩ <;> first | trivial | exact hmrt
          · simp only [if_neg hv] at herr ⊢
            by_cases hst : qp.state ≠ qp_state.INIT ∧ qp.state ≠ qp_state.RTR ∧
                qp.state ≠ qp_state.RTS
            · simp only [if_pos hst]
              refine ⟨?_, ?_, ?_, ?_, hsame⟩ <;> first | trivial | exact hmrt
            · simp only [if_neg hst] at herr ⊢
              by_cases hfull : (qp.sq_tail + 1) % qp.sq_size = qp.sq_head
              · simp only [if_pos hfull]
                refine ⟨by trivial, by first | trivial | exact hmrt, by trivial, by trivial, ?_⟩
                intro k qpa qp2 hga hg2
                by_cases hk : k = qp_id.toNat
                · subst hk
                  rw [list_get?_set_self _ _ _ hqlen, Option.some.injEq] at hg2
                  subst hg2
                  rw [hq, Option.some.injEq] at hga
                  subst hga
                  exact ⟨rfl, rfl, rfl, rfl, rfl⟩
                · rw [List.get?_set_ne _ _ (fun he => hk he.symm)] at hg2
                  exact hsame k qpa qp2 hga hg2
              · simp only [if_neg hfull] at herr
                simp at herr

/-- C4 witness: the concrete queue-full failure on sys1 leaves the MR
table exactly as it was. -/
theorem C4_witness :
    (rdma_qp_post_send env0 p0 sys1 0 wrW).1 < 0 ∧
    (rdma_qp_post_send env0 p0 sys1 0 wrW).2.mrt = sys1.mrt :=
  ⟨by decide, (C4_post_send_error_leaves_state_clean env0 p0 sys1 0 wrW (by decide)).2.1⟩

/-- Any validation failure on the rdma_net_rx WRITE path drops the
frame silently: memory untouched, no ACK, no completion on any QP. -/
theorem rx_write_validation_drop_aux (env : NetEnv) (p : proc) (mrt : List rdma_mr)
    (qpt : List rdma_qp) (mem : Mem) (hdr : rdma_pkt_hdr) (payload : List Nat)
    (hop : hdr.opcode = RDMA_NET_OP_WRITE)
    (hfail :
      hdr.dst_qp ≥ MAX_QPS ∨
      qpt.get? hdr.dst_qp = none ∨
      (∃ qp, qpt.get? hdr.dst_qp = some qp ∧ qp.valid = false) ∨
      rdma_mr_get mrt p hdr.remote_mr_id = none ∨
      (∃ m, rdma_mr_get mrt p hdr.remote_mr_id = some m ∧
        (m.hw.access_flags &&& RDMA_ACCESS_REMOTE_WRITE = 0 ∨
         resolve_offset m.hw hdr.remote_addr = none ∨
         (∃ off, resolve_offset m.hw hdr.remote_addr = some off ∧
           (off + hdr.length) % U64 > m.hw.length)))) :
    (rdma_net_rx env p mrt qpt mem hdr payload).mem = mem ∧
    (rdma_net_rx env p mrt qpt mem hdr payload).acks = [] ∧
    (∀ (k : Nat) (qpa qp2 : rdma_qp),
      qpt.get? k = some qpa →
      (rdma_net_rx env p mrt qpt mem hdr payload).qpt.get? k = some qp2 →
      qp2.cq = qpa.cq ∧ qp2.cq_tail = qpa.cq_tail) := by
  have hsame : ∀ (k : Nat) (qpa qp2 : rdma_qp),
      qpt.get? k = some qpa → qpt.get? k = some qp2 →
      qp2.cq = qpa.cq ∧ qp2.cq_tail = qpa.cq_tail := by
    intro k qpa qp2 ha hb
    rw [ha, Option.some.injEq] at hb
    subst hb
    exact ⟨rfl, rfl⟩
  unfold rdma_net_rx
  by_cases hd : hdr.dst_qp ≥ MAX_QPS
  · simp only [if_pos hd]
    refine ⟨?_, ?_, hsame⟩ <;> trivial
  · simp only [if_neg hd]
    cases hq : qpt.get? hdr.dst_qp with
    | none =>
      simp only [hq]
      refine ⟨?_, ?_, hsame⟩ <;> trivial
    | some qp =>
      simp only [hq]
      have hqlen : hdr.dst_qp < qpt.length := (List.get?_eq_some.mp hq).1
      by_cases hvq : ¬qp.valid = true
      · simp only [if_pos hvq]
        refine ⟨?_, ?_, hsame⟩ <;> trivial
      · simp only [if_neg hvq, if_pos hop]
        have hsetcase : ∀ (k : Nat) (qpa qp2 : rdma_qp),
            qpt.get? k = some qpa →
            ((qpt.set hdr.dst_qp
              (if qp.state = qp_state.RTR then { qp with state := qp_state.RTS }
               else qp)).get? k = some qp2) →
            qp2.cq = qpa.cq ∧ qp2.cq_tail = qpa.cq_tail := by
          intro k qpa qp2 hga hg2
          by_cases hk : k = hdr.dst_qp
          · subst hk
            rw [list_get?_set_self _ _ _ hqlen, Option.some.injEq] at hg2
            subst hg2
            rw [hq, Option.some.injEq] at hga
            subst hga
            split <;> exact ⟨rfl, rfl⟩
          · rw [List.get?_set_ne _ _ (fun he => hk he.symm)] at hg2
            exact hsame k qpa qp2 hga hg2
        cases hmr2 : rdma_mr_get mrt p hdr.remote_mr_id with
        | none =>
          simp only [hmr2]
          refine ⟨?_, ?_, hsetcase⟩ <;> trivial
        | some m =>
          simp only [hmr2]
          by_cases hacc : m.hw.access_flags &&& RDMA_ACCESS_REMOTE_WRITE = 0
          · simp only [if_pos hacc]
            refine ⟨?_, ?_, hsetcase⟩ <;> trivial
          · simp only [if_neg hacc]
            cases hro : resolve_offset m.hw hdr.remote_addr with
            | none =>
              simp only [hro]
              refine ⟨?_, ?_, hsetcase⟩ <;> trivial
            | some off =>
              simp only [hro]
              by_cases hbo : (off + hdr.length) % U64 > m.hw.length
              · simp only [if_pos hbo]
                refine ⟨?_, ?_, hsetcase⟩ <;> trivial
              · exfalso
                rcases hfail with h | h | h | h | h
                · exact hd h
                · rw [hq] at h; exact Option.noConfusion h
                · obtain ⟨qp', hg', hv'⟩ := h
                  rw [hq, Option.some.injEq] at hg'
                  subst hg'
                  rw [hv'] at hvq
                  exact hvq (by simp)
                · rw [hmr2] at h; exact Option.noConfusion h
                · obtain ⟨m', hm', hrest⟩ := h
                  rw [hmr2, Option.some.injEq] at hm'
                  subst hm'
                  rcases hrest with h | h | h
                  · exact hacc h
                  · rw [hro] at h; exact Option.noConfusion h
                  · obtain ⟨off', ho', hb'⟩ := h
                    rw [hro, Option.some.injEq] at ho'
                    subst ho'
                    exact hbo hb'

/-- C5: an inbound WRITE frame that fails validation in rdma_net_rx
(destination QP out of range, missing or invalid, destination MR lookup
failure, missing REMOTE_WRITE permission, address-resolution failure,
or bounds failure) is dropped silently: physical memory is untouched,
no ACK is transmitted, and no completion is posted on any QP. -/
theorem C5_rx_write_validation_drops (env : NetEnv) (p : proc) (mrt : List rdma_mr)
    (qpt : List rdma_qp) (mem : Mem) (hdr : rdma_pkt_hdr) (payload : List Nat)
    (hop : hdr.opcode = RDMA_NET_OP_WRITE)
    (hfail :
      hdr.dst_qp ≥ MAX_QPS ∨
      qpt.get? hdr.dst_qp = none ∨
      (∃ qp, qpt.get? hdr.dst_qp = some qp ∧ qp.valid = false) ∨
      rdma_mr_get mrt p hdr.remote_mr_id = none ∨
      (∃ m, rdma_mr_get mrt p hdr.remote_mr_id = some m ∧
        (m.hw.access_flags &&& RDMA_ACCESS_REMOTE_WRITE = 0 ∨
         resolve_offset m.hw hdr.remote_addr = none ∨
         (∃ off, resolve_offset m.hw hdr.remote_addr = some off ∧
           (off + hdr.length) % U64 > m.hw.length)))) :
    (rdma_net_rx env p mrt qpt mem hdr payload).mem = mem ∧
    (rdma_net_rx env p mrt qpt mem hdr payload).acks = [] ∧
    (∀ (k : Nat) (qpa qp2 : rdma_qp),
      qpt.get? k = some qpa →
      (rdma_net_rx env p mrt qpt mem hdr payload).qpt.get? k = some qp2 →
      qp2.cq = qpa.cq ∧ qp2.cq_tail = qpa.cq_tail) :=
  rx_write_validation_drop_aux env p mrt qpt mem hdr payload hop hfail

/-- C5 witness: a concrete WRITE frame naming the unknown MR id 99 is
dropped without touching memory, ACKs or any CQ. -/
theorem C5_witness :
    (rdma_net_rx env0 p0 mrt1 qptN mem0 hdrBadMr (List.replicate 16 7)).mem = mem0 ∧
    (rdma_net_rx env0 p0 mrt1 qptN mem0 hdrBadMr (List.replicate 16 7)).acks = [] :=
  ⟨(C5_rx_write_validation_drops env0 p0 mrt1 qptN mem0 hdrBadMr (List.replicate 16 7)
      (by decide)
      (Or.inr (Or.inr (Or.inr (Or.inl (by decide)))))).1,
   (C5_rx_write_validation_drops env0 p0 mrt1 qptN mem0 hdrBadMr (List.replicate 16 7)
      (by decide)
      (Or.inr (Or.inr (Or.inr (Or.inl (by decide)))))).2.1⟩

/-- C3: the destination offset of every WRITE is resolved by the
two-way heuristic (absolute address inside [vaddr, vaddr+length), else
plain offset below length, else failure), identically in the loopback
executor and the network RX path; a resolution failure or a
bounds-check failure yields REM_INV_REQ in loopback and a silent drop
on the RX path, and in both cases no memory is written. -/
theorem C3_remote_addr_resolution :
    (∀ (hw : rdma_mr_hw) (ra : Nat), hw.vaddr + hw.length < U64 →
      (hw.vaddr ≤ ra ∧ ra < hw.vaddr + hw.length →
        resolve_offset hw ra = some (ra - hw.vaddr)) ∧
      (¬(hw.vaddr ≤ ra ∧ ra < hw.vaddr + hw.length) → ra < hw.length →
        resolve_offset hw ra = some ra) ∧
      (¬(hw.vaddr ≤ ra ∧ ra < hw.vaddr + hw.length) → ¬ra < hw.length →
        resolve_offset hw ra = none)) ∧
    (∀ (mrt : List rdma_mr) (p : proc) (mem : Mem) (wr : rdma_work_request) (m : rdma_mr),
      wr.opcode = RDMA_OP_WRITE →
      rdma_mr_get mrt p wr.remote_mr_id = some m →
      m.hw.access_flags &&& RDMA_ACCESS_REMOTE_WRITE ≠ 0 →
      (resolve_offset m.hw wr.remote_addr = none →
        loopback_dispatch mrt p mem wr = (RDMA_WC_REM_INV_REQ, mem)) ∧
      (∀ (off : Nat), resolve_offset m.hw wr.remote_addr = some off →
        off + wr.length < U64 → off + wr.length > m.hw.length →
        loopback_dispatch mrt p mem wr = (RDMA_WC_REM_INV_REQ, mem))) ∧
    (∀ (env : NetEnv) (p : proc) (mrt : List rdma_mr) (qpt : List rdma_qp) (mem : Mem)
       (hdr : rdma_pkt_hdr) (payload : List Nat) (m : rdma_mr),
      hdr.opcode = RDMA_NET_OP_WRITE →
      rdma_mr_get mrt p hdr.remote_mr_id = some m →
      (resolve_offset m.hw hdr.remote_addr = none →
        (rdma_net_rx env p mrt qpt mem hdr payload).mem = mem ∧
        (rdma_net_rx env p mrt qpt mem hdr payload).acks = []) ∧
      (∀ (off : Nat), resolve_offset m.hw hdr.remote_addr = some off →
        off + hdr.length < U64 → off + hdr.length > m.hw.length →
        (rdma_net_rx env p mrt qpt mem hdr payload).mem = mem ∧
        (rdma_net_rx env p mrt qpt mem hdr payload).acks = [])) := by
  refine ⟨?_, ?_, ?_⟩
  · intro hw ra hov
    unfold resolve_offset
    rw [Nat.mod_eq_of_lt hov]
    refine ⟨?_, ?_, ?_⟩
    · intro h
      rw [if_pos (show ra ≥ hw.vaddr ∧ ra < hw.vaddr + hw.length from ⟨h.1, h.2⟩)]
    · intro h hlt
      rw [if_neg (show ¬(ra ≥ hw.vaddr ∧ ra < hw.vaddr + hw.length) from h), if_pos hlt]
    · intro h hlt
      rw [if_neg (show ¬(ra ≥ hw.vaddr ∧ ra < hw.vaddr + hw.length) from h), if_neg hlt]
  · intro mrt p mem wr m hop hmr hacc
    constructor
    · intro hro
      unfold loopback_dispatch
      rw [if_pos hop]
      simp only [hmr]
      rw [if_neg hacc]
      simp only [hro]
    · intro off hro hov hbo
      unfold loopback_dispatch
      rw [if_pos hop]
      simp only [hmr]
      rw [if_neg hacc]
      simp only [hro]
      rw [if_pos (show (off + wr.length) % U64 > m.hw.length by
        rw [Nat.mod_eq_of_lt hov]; exact hbo)]
  · intro env p mrt qpt mem hdr payload m hop hmr
    constructor
    · intro hro
      have h := rx_write_validation_drop_aux env p mrt qpt mem hdr payload hop
        (Or.inr (Or.inr (Or.inr (Or.inr ⟨m, hmr, Or.inr (Or.inl hro)⟩))))
      exact ⟨h.1, h.2.1⟩
    · intro off hro hov hbo
      have h := rx_write_validation_drop_aux env p mrt qpt mem hdr payload hop
        (Or.inr (Or.inr (Or.inr (Or.inr ⟨m, hmr, Or.inr (Or.inr
          ⟨off, hro, by rw [Nat.mod_eq_of_lt hov]; exact hbo⟩)⟩))))
      exact ⟨h.1, h.2.1⟩

/-- C3 witness: on the concrete MR mr1 (vaddr 4096, length 256) the
three resolution cases produce exactly the claimed offsets. -/
theorem C3_witness :
    resolve_offset mr1.hw 4100 = some (4100 - mr1.hw.vaddr) ∧
    resolve_offset mr1.hw 100 = some 100 ∧
    resolve_offset mr1.hw 5000 = none :=
  ⟨(C3_remote_addr_resolution.1 mr1.hw 4100 (by decide)).1 (by decide),
   (C3_remote_addr_resolution.1 mr1.hw 100 (by decide)).2.1 (by decide) (by decide),
   (C3_remote_addr_resolution.1 mr1.hw 5000 (by decide)).2.2 (by decide) (by decide)⟩

/-- C1 counterexample: a work request with SIGNALED set, posted through
rdma_qp_post_send on the connected network-mode QP and dispatched by
the executor (the call succeeds and one frame is transmitted), appends
no completion entry at all — refuting the claim that a SIGNALED WR
always appends exactly one CQE at dispatch. -/
theorem C1_counterexample :
    wrW.flags &&& RDMA_WR_SIGNALED ≠ 0 ∧
    (rdma_qp_post_send env0 p0 sysN 0 wrW).1 = 0 ∧
    (rdma_qp_post_send env0 p0 sysN 0 wrW).2.frames.length = 1 ∧
    ((rdma_qp_post_send env0 p0 sysN 0 wrW).2.qpt.getD 0 qp0).cq_tail =
      (sysN.qpt.getD 0 qp0).cq_tail ∧
    ((rdma_qp_post_send env0 p0 sysN 0 wrW).2.qpt.getD 0 qp0).cq =
      (sysN.qpt.getD 0 qp0).cq := by
  decide

/-- C1 (amended): for every work request dispatched by the executor on
a QP that is not in network mode with state RTS (loopback dispatch): if
the source MR lookup fails, exactly one error CQE is appended; otherwise,
if SIGNALED is cleared and the operation status is SUCCESS no CQE is
appended, and if SIGNALED is set or the status is an error exactly one
CQE (with the status and byte_len of the operation) is appended. In
network mode a successfully transmitted WRITE appends no CQE at
dispatch (completion is deferred to ACK arrival, see the counterexample). -/
theorem C1_loopback_cqe_discipline (env : NetEnv) (p : proc) (s : ExecSt)
    (hmode : ¬(s.qp.network_mode = true ∧ s.qp.state = qp_state.RTS)) :
    (rdma_mr_get s.mrt p (s.qp.sq.getD s.qp.sq_head wr0).local_mr_id = none →
      (process_one_wr env p s).qp.cq =
        s.qp.cq.set s.qp.cq_tail
          ⟨(s.qp.sq.getD s.qp.sq_head wr0).wr_id, 0, RDMA_WC_LOC_PROT_ERR,
            (s.qp.sq.getD s.qp.sq_head wr0).opcode⟩ ∧
      (process_one_wr env p s).qp.cq_tail = (s.qp.cq_tail + 1) % s.qp.cq_size) ∧
    (∀ (m : rdma_mr),
      rdma_mr_get s.mrt p (s.qp.sq.getD s.qp.sq_head wr0).local_mr_id = some m →
      (((s.qp.sq.getD s.qp.sq_head wr0).flags &&& RDMA_WR_SIGNALED = 0 ∧
          (loopback_dispatch s.mrt p s.mem (s.qp.sq.getD s.qp.sq_head wr0)).1 =
            RDMA_WC_SUCCESS) →
        (process_one_wr env p s).qp.cq = s.qp.cq ∧
        (process_one_wr env p s).qp.cq_tail = s.qp.cq_tail) ∧
      (((s.qp.sq.getD s.qp.sq_head wr0).flags &&& RDMA_WR_SIGNALED ≠ 0 ∨
          (loopback_dispatch s.mrt p s.mem (s.qp.sq.getD s.qp.sq_head wr0)).1 ≠
            RDMA_WC_SUCCESS) →
        (process_one_wr env p s).qp.cq =
          s.qp.cq.set s.qp.cq_tail
            ⟨(s.qp.sq.getD s.qp.sq_head wr0).wr_id,
              (if (loopback_dispatch s.mrt p s.mem (s.qp.sq.getD s.qp.sq_head wr0)).1 =
                  RDMA_WC_SUCCESS
               then (s.qp.sq.getD s.qp.sq_head wr0).length else 0),
              (loopback_dispatch s.mrt p s.mem (s.qp.sq.getD s.qp.sq_head wr0)).1,
              (s.qp.sq.getD s.qp.sq_head wr0).opcode⟩ ∧
        (process_one_wr env p s).qp.cq_tail = (s.qp.cq_tail + 1) % s.qp.cq_size)) := by
  constructor
  · intro hmr
    unfold process_one_wr dispatch_one
    simp only [hmr]
    exact ⟨rfl, rfl⟩
  · intro m hmr
    unfold process_one_wr dispatch_one
    simp only [hmr]
    rw [if_neg hmode]
    constructor
    · rintro ⟨h0, hsucc⟩
      rw [if_neg (show ¬((s.qp.sq.getD s.qp.sq_head wr0).flags &&& RDMA_WR_SIGNALED ≠ 0 ∨
          (loopback_dispatch s.mrt p s.mem (s.qp.sq.getD s.qp.sq_head wr0)).1 ≠
            RDMA_WC_SUCCESS) from fun h => h.elim (fun hh => hh h0) (fun hh => hh hsucc))]
      exact ⟨rfl, rfl⟩
    · intro hor
      rw [if_pos hor]
      by_cases hst :
          (loopback_dispatch s.mrt p s.mem (s.qp.sq.getD s.qp.sq_head wr0)).1 = RDMA_WC_SUCCESS
      · rw [if_pos hst]
        exact ⟨rfl, rfl⟩
      · rw [if_neg hst]
        exact ⟨rfl, rfl⟩

/-- C1 witness: the concrete signaled loopback WRITE of esL appends
exactly one SUCCESS CQE with byte_len 16. -/
theorem C1_witness :
    (process_one_wr env0 p0 esL).qp.cq =
      esL.qp.cq.set esL.qp.cq_tail ⟨42, 16, RDMA_WC_SUCCESS, RDMA_OP_WRITE⟩ ∧
    (process_one_wr env0 p0 esL).qp.cq_tail = (esL.qp.cq_tail + 1) % esL.qp.cq_size :=
  ((C1_loopback_cqe_discipline env0 p0 esL (by decide)).2 mr1 (by decide)).2
    (Or.inl (by decide))

/-- C7 counterexample: a READ work request on the connected
network-mode QP is consumed by the executor (the post succeeds and the
SQ drains) yet appends no completion entry at all, instead of the
claimed LOC_PROT_ERR CQE. -/
theorem C7_counterexample :
    wrR.opcode = RDMA_OP_READ ∧
    (rdma_qp_post_send env0 p0 sysN 0 wrR).1 = 0 ∧
    ((rdma_qp_post_send env0 p0 sysN 0 wrR).2.qpt.getD 0 qp0).sq_head =
      ((rdma_qp_post_send env0 p0 sysN 0 wrR).2.qpt.getD 0 qp0).sq_tail ∧
    ((rdma_qp_post_send env0 p0 sysN 0 wrR).2.qpt.getD 0 qp0).cq_tail =
      (sysN.qpt.getD 0 qp0).cq_tail ∧
    ((rdma_qp_post_send env0 p0 sysN 0 wrR).2.qpt.getD 0 qp0).cq =
      (sysN.qpt.getD 0 qp0).cq := by
  decide

/-- C7 (amended): for every work request whose opcode is READ, SEND or
READ_RESP dispatched by the executor in loopback mode (not network
mode with state RTS), exactly one completion entry with status
LOC_PROT_ERR and byte_len 0 is appended, whether or not the source MR
lookup succeeds; in network mode such opcodes are silently skipped
(see the counterexample). -/
theorem C7_loopback_unimplemented_opcodes (env : NetEnv) (p : proc) (s : ExecSt)
    (hmode : ¬(s.qp.network_mode = true ∧ s.qp.state = qp_state.RTS))
    (hop : (s.qp.sq.getD s.qp.sq_head wr0).opcode = RDMA_OP_READ ∨
           (s.qp.sq.getD s.qp.sq_head wr0).opcode = RDMA_OP_SEND ∨
           (s.qp.sq.getD s.qp.sq_head wr0).opcode = RDMA_OP_READ_RESP) :
    (process_one_wr env p s).qp.cq =
      s.qp.cq.set s.qp.cq_tail
        ⟨(s.qp.sq.getD s.qp.sq_head wr0).wr_id, 0, RDMA_WC_LOC_PROT_ERR,
          (s.qp.sq.getD s.qp.sq_head wr0).opcode⟩ ∧
    (process_one_wr env p s).qp.cq_tail = (s.qp.cq_tail + 1) % s.qp.cq_size := by
  have hne : (s.qp.sq.getD s.qp.sq_head wr0).opcode ≠ RDMA_OP_WRITE := by
    rcases hop with h | h | h <;> rw [h] <;> decide
  have hld : loopback_dispatch s.mrt p s.mem (s.qp.sq.getD s.qp.sq_head wr0) =
      (RDMA_WC_LOC_PROT_ERR, s.mem) := by
    unfold loopback_dispatch
    rw [if_neg hne]
  unfold process_one_wr dispatch_one
  cases hmr : rdma_mr_get s.mrt p (s.qp.sq.getD s.qp.sq_head wr0).local_mr_id with
  | none =>
    simp only [hmr]
    exact ⟨rfl, rfl⟩
  | some m =>
    simp only [hmr]
    rw [if_neg hmode]
    simp only [hld]
    simp only [if_pos (Or.inr (show RDMA_WC_LOC_PROT_ERR ≠ RDMA_WC_SUCCESS by decide)),
      if_neg (show ¬RDMA_WC_LOC_PROT_ERR = RDMA_WC_SUCCESS by decide)]
    exact ⟨rfl, rfl⟩

/-- C7 witness: the concrete loopback READ of esLR appends exactly one
LOC_PROT_ERR CQE with byte_len 0. -/
theorem C7_witness :
    (process_one_wr env0 p0 esLR).qp.cq =
      esLR.qp.cq.set esLR.qp.cq_tail ⟨42, 0, RDMA_WC_LOC_PROT_ERR, RDMA_OP_READ⟩ ∧
    (process_one_wr env0 p0 esLR).qp.cq_tail = (esLR.qp.cq_tail + 1) % esLR.qp.cq_size :=
  C7_loopback_unimplemented_opcodes env0 p0 esLR (by decide) (Or.inl (by decide))

theorem tx_qp_next_pending_signaled (qp : rdma_qp) (wr : rdma_work_request)
    (h : wr.flags &&& RDMA_WR_SIGNALED ≠ 0) :
    (tx_qp_next qp wr).pending_acks =
      record_pending_ack qp.pending_acks qp.tx_seq_num wr.wr_id := by
  simp only [tx_qp_next, if_pos h]
  split <;> rfl

theorem tx_qp_next_seq (qp : rdma_qp) (wr : rdma_work_request) :
    (tx_qp_next qp wr).tx_seq_num = (qp.tx_seq_num + 1) % U32 := by
  simp only [tx_qp_next]
  split_ifs <;> rfl

theorem record_pending_ack_at (l : List rdma_pending_ack) (seq wrid i : Nat)
    (hfind : l.findIdx? (fun pa => !pa.valid) = some i) (hilen : i < l.length) :
    (record_pending_ack l seq wrid).get? i = some ⟨true, seq, wrid⟩ := by
  unfold record_pending_ack
  simp only [hfind]
  exact list_get?_set_self _ _ _ hilen

/-- C2 counterexample: an unsignaled network-mode WRITE is transmitted
as a frame (post succeeds, one frame goes out, tx_seq_num advances),
yet no pending_ack entry is recorded — refuting the claim that every
transmitted WRITE records a pending_ack. -/
theorem C2_counterexample :
    wrU.flags &&& RDMA_WR_SIGNALED = 0 ∧
    (rdma_qp_post_send env0 p0 sysN 0 wrU).1 = 0 ∧
    (rdma_qp_post_send env0 p0 sysN 0 wrU).2.frames.length = 1 ∧
    ((rdma_qp_post_send env0 p0 sysN 0 wrU).2.qpt.getD 0 qp0).tx_seq_num =
      (sysN.qpt.getD 0 qp0).tx_seq_num + 1 ∧
    ((rdma_qp_post_send env0 p0 sysN 0 wrU).2.qpt.getD 0 qp0).pending_acks =
      (sysN.qpt.getD 0 qp0).pending_acks ∧
    ((sysN.qpt.getD 0 qp0).pending_acks.all fun pa => !pa.valid) = true := by
  decide

/-- C2 (amended): for every SIGNALED network-mode WRITE transmitted by
rdma_net_tx_write with a free pending_acks slot: the frame carries the
current tx_seq_num, a pending entry {seq_num = tx_seq_num, wr_id} is
recorded, tx_seq_num is incremented, and no CQE is appended at transmit
time. When the matching ACK reaches rdma_net_rx, exactly one SUCCESS
CQE carrying the recorded wr_id is appended and the entry is cleared;
an ACK matching no valid entry changes nothing, so no CQE is ever
produced without the ACK. (Unsignaled WRITEs record no entry — see the
counterexample.) -/
theorem C2_signaled_write_ack_protocol :
    (∀ (env : NetEnv) (mrt : List rdma_mr) (p : proc) (mem : Mem) (qp qpx : rdma_qp)
       (wr : rdma_work_request) (fr : eth_frame) (i : Nat),
      wr.flags &&& RDMA_WR_SIGNALED ≠ 0 →
      qp.pending_acks.findIdx? (fun pa => !pa.valid) = some i →
      i < qp.pending_acks.length →
      rdma_net_tx_write env mrt p mem qp wr = some (qpx, fr) →
      fr.hdr.seq_num = qp.tx_seq_num ∧
      qpx.pending_acks.get? i = some ⟨true, qp.tx_seq_num, wr.wr_id⟩ ∧
      qpx.tx_seq_num = (qp.tx_seq_num + 1) % U32 ∧
      qpx.cq = qp.cq ∧ qpx.cq_tail = qp.cq_tail) ∧
    (∀ (env : NetEnv) (p : proc) (mrt : List rdma_mr) (qpt : List rdma_qp) (mem : Mem)
       (hdr : rdma_pkt_hdr) (payload : List Nat) (qp : rdma_qp) (i : Nat)
       (pa : rdma_pending_ack) (qp2 : rdma_qp),
      hdr.opcode = RDMA_NET_OP_ACK → ¬hdr.dst_qp ≥ MAX_QPS →
      qpt.get? hdr.dst_qp = some qp → qp.valid = true →
      qp.pending_acks.findIdx? (fun q => q.valid && q.seq_num == hdr.seq_num) = some i →
      qp.pending_acks.get? i = some pa →
      (rdma_net_rx env p mrt qpt mem hdr payload).qpt.get? hdr.dst_qp = some qp2 →
      qp2.cq = qp.cq.set qp.cq_tail ⟨pa.wr_id, hdr.length, RDMA_WC_SUCCESS, RDMA_OP_WRITE⟩ ∧
      qp2.cq_tail = (qp.cq_tail + 1) % qp.cq_size ∧
      qp2.pending_acks.get? i = some { pa with valid := false } ∧
      (rdma_net_rx env p mrt qpt mem hdr payload).mem = mem ∧
      (rdma_net_rx env p mrt qpt mem hdr payload).acks = []) ∧
    (∀ (env : NetEnv) (p : proc) (mrt : List rdma_mr) (qpt : List rdma_qp) (mem : Mem)
       (hdr : rdma_pkt_hdr) (payload : List Nat) (qp : rdma_qp),
      hdr.opcode = RDMA_NET_OP_ACK → ¬hdr.dst_qp ≥ MAX_QPS →
      qpt.get? hdr.dst_qp = some qp → qp.valid = true →
      qp.pending_acks.findIdx? (fun q => q.valid && q.seq_num == hdr.seq_num) = none →
      (rdma_net_rx env p mrt qpt mem hdr payload).qpt = qpt ∧
      (rdma_net_rx env p mrt qpt mem hdr payload).mem = mem ∧
      (rdma_net_rx env p mrt qpt mem hdr payload).acks = []) := by
  refine ⟨?_, ?_, ?_⟩
  · intro env mrt p mem qp qpx wr fr i hsig hfind hilen htx
    obtain ⟨hq, hf⟩ := tx_write_some_inv _ _ _ _ _ _ _ _ htx
    subst hq
    subst hf
    obtain ⟨-, -, -, -, e5, e6, -⟩ := tx_qp_next_fields qp wr
    refine ⟨rfl, ?_, tx_qp_next_seq qp wr, e5, e6⟩
    rw [tx_qp_next_pending_signaled qp wr hsig]
    exact record_pending_ack_at _ _ _ _ hfind hilen
  · intro env p mrt qpt mem hdr payload qp i pa qp2 hop hd hq hv hfind hpa hget2
    have hqlen : hdr.dst_qp < qpt.length := (List.get?_eq_some.mp hq).1
    have hpalen : i < qp.pending_acks.length := (List.get?_eq_some.mp hpa).1
    unfold rdma_net_rx at hget2 ⊢
    rw [if_neg hd] at hget2 ⊢
    simp only [hq] at hget2 ⊢
    rw [if_neg (by simp [hv])] at hget2 ⊢
    rw [if_neg (show ¬hdr.opcode = RDMA_NET_OP_WRITE by rw [hop]; decide)] at hget2 ⊢
    rw [if_pos hop] at hget2 ⊢
    simp only [hfind, List.getD_eq_get?, hpa, Option.getD_some] at hget2 ⊢
    rw [list_get?_set_self _ _ _ hqlen, Option.some.injEq] at hget2
    subst hget2
    refine ⟨by trivial, by trivial, ?_, by trivial, by trivial⟩
    exact list_get?_set_self _ _ _ hpalen
  · intro env p mrt qpt mem hdr payload qp hop hd hq hv hfind
    unfold rdma_net_rx
    rw [if_neg hd]
    simp only [hq]
    rw [if_neg (by simp [hv])]
    rw [if_neg (show ¬hdr.opcode = RDMA_NET_OP_WRITE by rw [hop]; decide)]
    rw [if_pos hop]
    simp only [hfind]
    refine ⟨?_, ?_, ?_⟩ <;> trivial

/-- C2 witness: the concrete signaled WRITE on the connected QP records
pending_ack {seq 1, wr_id 42}, stamps the frame with sequence 1,
increments tx_seq_num and posts no CQE. -/
theorem C2_witness :
    frTx.hdr.seq_num = qpN.tx_seq_num ∧
    qpTx.pending_acks.get? 0 = some ⟨true, qpN.tx_seq_num, wrW.wr_id⟩ ∧
    qpTx.tx_seq_num = (qpN.tx_seq_num + 1) % U32 ∧
    qpTx.cq = qpN.cq ∧ qpTx.cq_tail = qpN.cq_tail :=
  C2_signaled_write_ack_protocol.1 env0 mrt1 p0 mem0 qpN qpTx wrW frTx 0
    (by decide) (by decide) (by decide) (by decide)

theorem append_then_drain (env : NetEnv) (p : proc) (qpA : rdma_qp)
    (mrtA : List rdma_mr) (memA : Mem) (frA : List eth_frame) (kwr : rdma_work_request)
    (hb1 : 0 < qpA.sq_size) (hb2 : qpA.sq_size < U32) (hb3 : qpA.sq_head < qpA.sq_size)
    (hb4 : qpA.sq_tail < qpA.sq_size) (hinv : sq_inv qpA)
    (hnf : (qpA.sq_tail + 1) % qpA.sq_size ≠ qpA.sq_head) :
    qp_wf (process_wrs env p qpA.sq_size ⟨sq_append qpA kwr, mrtA, memA, frA⟩).qp ∧
    sq_inv (process_wrs env p qpA.sq_size ⟨sq_append qpA kwr, mrtA, memA, frA⟩).qp := by
  have hgap_lt : sq_gap qpA < qpA.sq_size := by
    simp only [sq_gap]; exact Nat.mod_lt _ hb1
  have ho_lt : qpA.outstanding_ops < qpA.sq_size := by
    simp only [sq_inv] at hinv; omega
  have hinv1 : sq_inv (sq_append qpA kwr) := by
    simp only [sq_inv, sq_gap, sq_append]
    rw [gap_succ_tail qpA.sq_size qpA.sq_head qpA.sq_tail hb1 hb3 hb4 hnf]
    rw [Nat.mod_eq_of_lt (show qpA.outstanding_ops + 1 < U32 by omega)]
    simp only [sq_inv, sq_gap] at hinv
    omega
  have hgapq : sq_gap (sq_append qpA kwr) ≤ qpA.sq_size := by
    show ((qpA.sq_tail + 1) % qpA.sq_size + qpA.sq_size - qpA.sq_head) % qpA.sq_size ≤
      qpA.sq_size
    rw [gap_succ_tail qpA.sq_size qpA.sq_head qpA.sq_tail hb1 hb3 hb4 hnf]
    simp only [sq_gap] at hgap_lt
    omega
  obtain ⟨g1, g2, g3, g4⟩ :=
    process_wrs_drain env p qpA.sq_size ⟨sq_append qpA kwr, mrtA, memA, frA⟩
      hb1 hb2 hb3 (Nat.mod_lt _ hb1) hinv1 hgapq
  refine ⟨⟨?_, ?_, ?_, ?_⟩, g2⟩
  · rw [g4]; exact hb1
  · rw [g4]; exact hb2
  · rw [g1, g3, g4]; exact Nat.mod_lt _ hb1
  · rw [g3, g4]; exact Nat.mod_lt _ hb1

theorem poll_qpt_sq_fields (p : proc) (qpt : List rdma_qp) (qp_id maxc : Int)
    (k : Nat) (qp qp2 : rdma_qp) (hget : qpt.get? k = some qp)
    (hget2 : (rdma_qp_poll_cq p qpt qp_id maxc).2.2.get? k = some qp2) :
    qp2.sq_head = qp.sq_head ∧ qp2.sq_tail = qp.sq_tail ∧
    qp2.sq_size = qp.sq_size ∧ qp2.outstanding_ops = qp.outstanding_ops := by
  have hcarry : qpt.get? k = some qp2 →
      qp2.sq_head = qp.sq_head ∧ qp2.sq_tail = qp.sq_tail ∧
      qp2.sq_size = qp.sq_size ∧ qp2.outstanding_ops = qp.outstanding_ops := by
    intro h2
    rw [hget, Option.some.injEq] at h2
    subst h2
    exact ⟨rfl, rfl, rfl, rfl⟩
  unfold rdma_qp_poll_cq at hget2
  by_cases h1 : qp_id < 0 ∨ qp_id ≥ (MAX_QPS : Int) ∨ maxc ≤ 0
  · simp only [if_pos h1] at hget2
    exact hcarry hget2
  · simp only [if_neg h1] at hget2
    cases hqm : qpt.get? qp_id.toNat with
    | none =>
      simp only [hqm] at hget2
      exact hcarry hget2
    | some qpm =>
      simp only [hqm] at hget2
      by_cases hv : ¬qpm.valid = true ∨ qpm.owner ≠ p.ptr
      · simp only [if_pos hv] at hget2
        exact hcarry hget2
      · simp only [if_neg hv] at hget2
        have hqlen := (List.get?_eq_some.mp hqm).1
        by_cases hk : k = qp_id.toNat
        · subst hk
          rw [list_get?_set_self _ _ _ hqlen, Option.some.injEq] at hget2
          subst hget2
          rw [hget, Option.some.injEq] at hqm
          subst hqm
          obtain ⟨e1, e2, e3, e4⟩ := poll_loop_sq_fields maxc.toNat qp []
          exact ⟨e1, e2, e3, e4⟩
        · rw [List.get?_set_ne _ _ (fun he => hk he.symm)] at hget2
          exact hcarry hget2

theorem connect_qpt_sq_fields (p : proc) (qpt : List rdma_qp) (qp_id : Int)
    (mac : List Nat) (rq : Nat) (k : Nat) (qp qp2 : rdma_qp)
    (hget : qpt.get? k = some qp)
    (hget2 : (rdma_qp_connect p qpt qp_id mac rq).2.get? k = some qp2) :
    qp2.sq_head = qp.sq_head ∧ qp2.sq_tail = qp.sq_tail ∧
    qp2.sq_size = qp.sq_size ∧ qp2.outstanding_ops = qp.outstanding_ops := by
  have hcarry : qpt.get? k = some qp2 →
      qp2.sq_head = qp.sq_head ∧ qp2.sq_tail = qp.sq_tail ∧
      qp2.sq_size = qp.sq_size ∧ qp2.outstanding_ops = qp.outstanding_ops := by
    intro h2
    rw [hget, Option.some.injEq] at h2
    subst h2
    exact ⟨rfl, rfl, rfl, rfl⟩
  unfold rdma_qp_connect at hget2
  by_cases h1 : qp_id < 0 ∨ qp_id ≥ (MAX_QPS : Int)
  · simp only [if_pos h1] at hget2
    exact hcarry hget2
  · simp only [if_neg h1] at hget2
    cases hqm : qpt.get? qp_id.toNat with
    | none =>
      simp only [hqm] at hget2
      exact hcarry hget2
    | some qpm =>
      simp only [hqm] at hget2
      by_cases hv : ¬qpm.valid = true ∨ qpm.owner ≠ p.ptr
      · simp only [if_pos hv] at hget2
        exact hcarry hget2
      · simp only [if_neg hv] at hget2
        by_cases hst : qpm.state ≠ qp_state.INIT
        · simp only [if_pos hst] at hget2
          exact hcarry hget2
        · simp only [if_neg hst] at hget2
          have hqlen := (List.get?_eq_some.mp hqm).1
          by_cases hk : k = qp_id.toNat
          · subst hk
            rw [list_get?_set_self _ _ _ hqlen, Option.some.injEq] at hget2
            subst hget2
            rw [hget, Option.some.injEq] at hqm
            subst hqm
            exact ⟨rfl, rfl, rfl, rfl⟩
          · rw [List.get?_set_ne _ _ (fun he => hk he.symm)] at hget2
            exact hcarry hget2

theorem rx_qpt_sq_fields (env : NetEnv) (p : proc) (mrt : List rdma_mr)
    (qpt : List rdma_qp) (mem : Mem) (hdr : rdma_pkt_hdr) (payload : List Nat)
    (k : Nat) (qp qp2 : rdma_qp) (hget : qpt.get? k = some qp)
    (hget2 : (rdma_net_rx env p mrt qpt mem hdr payload).qpt.get? k = some qp2) :
    qp2.sq_head = qp.sq_head ∧ qp2.sq_tail = qp.sq_tail ∧
    qp2.sq_size = qp.sq_size ∧ qp2.outstanding_ops = qp.outstanding_ops := by
  have hcarry : qpt.get? k = some qp2 →
      qp2.sq_head = qp.sq_head ∧ qp2.sq_tail = qp.sq_tail ∧
      qp2.sq_size = qp.sq_size ∧ qp2.outstanding_ops = qp.outstanding_ops := by
    intro h2
    rw [hget, Option.some.injEq] at h2
    subst h2
    exact ⟨rfl, rfl, rfl, rfl⟩
  unfold rdma_net_rx at hget2
  by_cases hd : hdr.dst_qp ≥ MAX_QPS
  · simp only [if_pos hd] at hget2
    exact hcarry hget2
  · simp only [if_neg hd] at hget2
    cases hqm : qpt.get? hdr.dst_qp with
    | none =>
      simp only [hqm] at hget2
      exact hcarry hget2
    | some qpm =>
      simp only [hqm] at hget2
      have hqlen := (List.get?_eq_some.mp hqm).1
      have hsetX : ∀ (X : rdma_qp),
          X.sq_head = qpm.sq_head → X.sq_tail = qpm.sq_tail →
          X.sq_size = qpm.sq_size → X.outstanding_ops = qpm.outstanding_ops →
          (qpt.set hdr.dst_qp X).get? k = some qp2 →
          qp2.sq_head = qp.sq_head ∧ qp2.sq_tail = qp.sq_tail ∧
          qp2.sq_size = qp.sq_size ∧ qp2.outstanding_ops = qp.outstanding_ops := by
        intro X f1 f2 f3 f4 h2
        by_cases hk : k = hdr.dst_qp
        · subst hk
          rw [list_get?_set_self _ _ _ hqlen, Option.some.injEq] at h2
          subst h2
          rw [hget, Option.some.injEq] at hqm
          subst hqm
          exact ⟨f1, f2, f3, f4⟩
        · rw [List.get?_set_ne _ _ (fun he => hk he.symm)] at h2
          exact hcarry h2
      by_cases hvq : ¬qpm.valid = true
      · simp only [if_pos hvq] at hget2
        exact hcarry hget2
      · simp only [if_neg hvq] at hget2
        by_cases hopw : hdr.opcode = RDMA_NET_OP_WRITE
        · simp only [if_pos hopw] at hget2
          cases hmr2 : rdma_mr_get mrt p hdr.remote_mr_id with
          | none =>
            simp only [hmr2] at hget2
            exact hsetX _ (by split <;> rfl) (by split <;> rfl) (by split <;> rfl)
              (by split <;> rfl) hget2
          | some m =>
            simp only [hmr2] at hget2
            by_cases hacc : m.hw.access_flags &&& RDMA_ACCESS_REMOTE_WRITE = 0
            · simp only [if_pos hacc] at hget2
              exact hsetX _ (by split <;> rfl) (by split <;> rfl) (by split <;> rfl)
                (by split <;> rfl) hget2
            · simp only [if_neg hacc] at hget2
              cases hro : resolve_offset m.hw hdr.remote_addr with
              | none =>
                simp only [hro] at hget2
                exact hsetX _ (by split <;> rfl) (by split <;> rfl) (by split <;> rfl)
                  (by split <;> rfl) hget2
              | some off =>
                simp only [hro] at hget2
                by_cases hbo : (off + hdr.length) % U64 > m.hw.length
                · simp only [if_pos hbo] at hget2
                  exact hsetX _ (by split <;> rfl) (by split <;> rfl) (by split <;> rfl)
                    (by split <;> rfl) hget2
                · simp only [if_neg hbo] at hget2
                  by_cases hpl : payload.length < hdr.length
                  · simp only [if_pos hpl] at hget2
                    exact hsetX _ (by split <;> rfl) (by split <;> rfl) (by split <;> rfl)
                      (by split <;> rfl) hget2
                  · simp only [if_neg hpl] at hget2
                    exact hsetX _ (by split <;> rfl) (by split <;> rfl) (by split <;> rfl)
                      (by split <;> rfl) hget2
        · simp only [if_neg hopw] at hget2
          by_cases hopa : hdr.opcode = RDMA_NET_OP_ACK
          · simp only [if_pos hopa] at hget2
            cases hfi : qpm.pending_acks.findIdx?
                (fun q => q.valid && q.seq_num == hdr.seq_num) with
            | none =>
              simp only [hfi] at hget2
              exact hcarry hget2
            | some i =>
              simp only [hfi] at hget2
              refine hsetX _ ?_ ?_ ?_ ?_ hget2 <;> rfl
          · simp only [if_neg hopa] at hget2
            exact hcarry hget2

/-- C8: after every completed core operation — qp_create, qp_post_send
(success or failure), qp_poll_cq, qp_connect, and frame receipt — every
valid QP satisfies (sq_tail - sq_head) mod sq_size = outstanding_ops:
creation establishes the invariant and each operation preserves it. -/
theorem C8_outstanding_matches_ring_occupancy :
    (∀ (p : proc) (env : AllocEnv) (qpt : List rdma_qp) (ssz csz i : Nat)
       (qpt2 : List rdma_qp) (qpx : rdma_qp),
      rdma_qp_create p env qpt ssz csz = some (i, qpt2) →
      qpt2.get? i = some qpx →
      qp_wf qpx ∧ sq_inv qpx) ∧
    (∀ (env : NetEnv) (p : proc) (s : SysSt) (qp_id : Int) (wr : rdma_work_request)
       (qp qp2 : rdma_qp),
      s.qpt.get? qp_id.toNat = some qp → qp_wf qp → sq_inv qp →
      (rdma_qp_post_send env p s qp_id wr).2.qpt.get? qp_id.toNat = some qp2 →
      qp_wf qp2 ∧ sq_inv qp2) ∧
    (∀ (p : proc) (qpt : List rdma_qp) (qp_id maxc : Int) (k : Nat) (qp qp2 : rdma_qp),
      qpt.get? k = some qp → sq_inv qp →
      (rdma_qp_poll_cq p qpt qp_id maxc).2.2.get? k = some qp2 →
      sq_inv qp2) ∧
    (∀ (p : proc) (qpt : List rdma_qp) (qp_id : Int) (mac : List Nat) (rq : Nat)
       (k : Nat) (qp qp2 : rdma_qp),
      qpt.get? k = some qp → sq_inv qp →
      (rdma_qp_connect p qpt qp_id mac rq).2.get? k = some qp2 →
      sq_inv qp2) ∧
    (∀ (env : NetEnv) (p : proc) (mrt : List rdma_mr) (qpt : List rdma_qp) (mem : Mem)
       (hdr : rdma_pkt_hdr) (payload : List Nat) (k : Nat) (qp qp2 : rdma_qp),
      qpt.get? k = some qp → sq_inv qp →
      (rdma_net_rx env p mrt qpt mem hdr payload).qpt.get? k = some qp2 →
      sq_inv qp2) := by
  refine ⟨?_, ?_, ?_, ?_, ?_⟩
  · intro p env qpt ssz csz i qpt2 qpx hc hget
    unfold rdma_qp_create at hc
    split at hc
    · simp at hc
    · rename_i hval
      split at hc
      · simp at hc
      · rename_i hlim
        cases hfi : qpt.findIdx? (fun q => !q.valid) with
        | none => simp only [hfi] at hc; simp at hc
        | some j =>
          simp only [hfi] at hc
          split at hc
          · simp at hc
          · split at hc
            · simp at hc
            · rw [Option.some.injEq, Prod.mk.injEq] at hc
              obtain ⟨hji, hq2⟩ := hc
              subst hji
              subst hq2
              have hjlen : j < qpt.length := by
                have h := (List.get?_eq_some.mp hget).1
                rwa [List.length_set] at h
              rw [list_get?_set_self _ _ _ hjlen, Option.some.injEq] at hget
              subst hget
              push_neg at hval hlim
              have hpos : 0 < ssz := Nat.pos_of_ne_zero hval.1
              have hlt : ssz < U32 :=
                lt_of_le_of_lt hlim.1 (by norm_num [PGSIZE, SQ_ENTRY_BYTES, U32])
              refine ⟨⟨hpos, hlt, hpos, hpos⟩, ?_⟩
              show (0 + ssz - 0) % ssz = 0
              simp [Nat.mod_self]
  · intro env p s qp_id wr qp qp2 hget hwf hinv hget2
    obtain ⟨hw1, hw2, hw3, hw4⟩ := hwf
    have hcarry : ∀ (q2 : rdma_qp), s.qpt.get? qp_id.toNat = some q2 →
        qp_wf q2 ∧ sq_inv q2 := by
      intro q2 h2
      rw [hget, Option.some.injEq] at h2
      subst h2
      exact ⟨⟨hw1, hw2, hw3, hw4⟩, hinv⟩
    unfold rdma_qp_post_send at hget2
    by_cases h1 : qp_id < 0 ∨ qp_id ≥ (MAX_QPS : Int)
    · simp only [if_pos h1] at hget2
      exact hcarry qp2 hget2
    · simp only [if_neg h1] at hget2
      cases hmr : rdma_mr_get s.mrt p wr.local_mr_id with
      | none =>
        simp only [hmr] at hget2
        exact hcarry qp2 hget2
      | some mr =>
        simp only [hmr] at hget2
        by_cases hb : (wr.local_offset + wr.length) % U64 > mr.hw.length
        · simp only [if_pos hb] at hget2
          exact hcarry qp2 hget2
        · simp only [if_neg hb] at hget2
          simp only [hget] at hget2
          have hqlen := (List.get?_eq_some.mp hget).1
          by_cases hv : ¬qp.valid = true ∨ qp.owner ≠ p.ptr
          · simp only [if_pos hv] at hget2
            exact hcarry qp2 hget2
          · simp only [if_neg hv] at hget2
            by_cases hst : qp.state ≠ qp_state.INIT ∧ qp.state ≠ qp_state.RTR ∧
                qp.state ≠ qp_state.RTS
            · simp only [if_pos hst] at hget2
              exact hcarry qp2 hget2
            · simp only [if_neg hst] at hget2
              by_cases hfull : (qp.sq_tail + 1) % qp.sq_size = qp.sq_head
              · simp only [if_pos hfull] at hget2
                rw [list_get?_set_self _ _ _ hqlen, Option.some.injEq] at hget2
                subst hget2
                exact ⟨⟨hw1, hw2, hw3, hw4⟩, hinv⟩
              · simp only [if_neg hfull] at hget2
                rw [list_get?_set_self _ _ _ hqlen, Option.some.injEq] at hget2
                subst hget2
                exact append_then_drain env p qp (mr_inc_ref s.mrt wr.local_mr_id)
                  s.mem s.frames _ hw1 hw2 hw3 hw4 hinv hfull
  · intro p qpt qp_id maxc k qp qp2 hget hinv hget2
    obtain ⟨f1, f2, f3, f4⟩ := poll_qpt_sq_fields p qpt qp_id maxc k qp qp2 hget hget2
    simp only [sq_inv, sq_gap] at hinv ⊢
    rw [f1, f2, f3, f4]
    exact hinv
  · intro p qpt qp_id mac rq k qp qp2 hget hinv hget2
    obtain ⟨f1, f2, f3, f4⟩ := connect_qpt_sq_fields p qpt qp_id mac rq k qp qp2 hget hget2
    simp only [sq_inv, sq_gap] at hinv ⊢
    rw [f1, f2, f3, f4]
    exact hinv
  · intro env p mrt qpt mem hdr payload k qp qp2 hget hinv hget2
    obtain ⟨f1, f2, f3, f4⟩ :=
      rx_qpt_sq_fields env p mrt qpt mem hdr payload k qp qp2 hget hget2
    simp only [sq_inv, sq_gap] at hinv ⊢
    rw [f1, f2, f3, f4]
    exact hinv

/-- C8 witness: the invariant holds on the concrete QP produced by a
successful loopback post on sys4. -/
theorem C8_witness :
    qp_wf ((rdma_qp_post_send env0 p0 sys4 0 wrW).2.qpt.getD 0 qp0) ∧
    sq_inv ((rdma_qp_post_send env0 p0 sys4 0 wrW).2.qpt.getD 0 qp0) :=
  C8_outstanding_matches_ring_occupancy.2.1 env0 p0 sys4 0 wrW (qpt4.getD 0 qp0)
    ((rdma_qp_post_send env0 p0 sys4 0 wrW).2.qpt.getD 0 qp0)
    (by decide) (by decide) (by decide) (by decide)

end RdmaSpec
